import Mathlib

/-!
# gigTech lock manager: a shallow embedding of `lockInfo.go` and `lockmanager.go`

The Go program keeps one `*lockInfo` per resource name in a `sync.Map` and
serves three HTTP calls (`RequestLock`, `ReleaseLock`, `RefreshLock`).

Modelling decisions, all visible in the definitions below:

* Go strings are `List Char`.  Every separator and prefix the program looks
  for is ASCII, so splitting and slicing by bytes and by characters agree.
* `time.Time` is an integer number of nanoseconds since the Unix epoch and
  `time.Duration` an integer number of nanoseconds; `Time.Sub` saturates at
  the `int64` bounds as in the Go library.
* The process state is explicit: a clock, a heap of every `lockInfo` ever
  allocated (a `*lockInfo` is an index into it) and the `sync.Map`.
  `time.Now()` reads the clock, `time.Sleep` and a timed-out
  `TryLockTimeout` advance it, everything else is instantaneous.
* A handler runs alone.  A mutex that is held when the handler arrives stays
  held: `TryLockTimeout` then times out and `Lock` never returns.  Only the
  section on concurrent requests lets goroutines interleave: it cuts
  `apiV1RequestLock` at `locks.Load`, its first access to the shared map.
* `crypto/md5` and `time.Time.String` are library code; they are the two
  fields of `Extern`.
-/

namespace LockManager

/-! ## Strings -/

/-- A Go string. -/
abbrev Str := List Char

/-- Go `strings.Split(s, sep)` for a separator of one character: the pieces
between the occurrences of `sep`, always at least one piece. -/
def stringsSplit : Str → Char → List Str
  | [], _ => [[]]
  | c :: cs, sep =>
    if c = sep then [] :: stringsSplit cs sep
    else
      match stringsSplit cs sep with
      | [] => [[c]]
      | x :: xs => (c :: x) :: xs

/-- Go slice expression `s[n:]`: `none` stands for the run-time panic when
`n` exceeds the length. -/
def sliceFrom (s : Str) (n : Nat) : Option Str :=
  if n ≤ s.length then some (s.drop n) else none

/-! ## Time -/

/-- A `time.Time`, in nanoseconds since the Unix epoch. -/
abbrev Time := Int

/-- A `time.Duration`, in nanoseconds. -/
abbrev Duration := Int

/-- The largest `time.Duration` (`1<<63 - 1`). -/
def maxDuration : Duration := 9223372036854775807

/-- The smallest `time.Duration` (`-1 << 63`). -/
def minDuration : Duration := -9223372036854775808

/-- Go `t.Sub(u)`: the difference `t - u`, saturated to the `int64` range of
a `Duration`. -/
def timeSub (t u : Time) : Duration :=
  if t - u > maxDuration then maxDuration
  else if t - u < minDuration then minDuration
  else t - u

/-- Go `t.Add(d)`. -/
def timeAdd (t : Time) (d : Duration) : Time := t + d

/-- Go `time.Unix(0, 0)`. -/
def unixEpoch : Time := 0

/-! ## Constants of `lockmanager.go` -/

def APIV1 : Str := "/api.v1/".toList
def APIV1REQUESTLOCK : Str := APIV1 ++ "RequestLock/".toList
def APIV1RELEASELOCK : Str := APIV1 ++ "ReleaseLock/".toList
def APIV1REFRESHLOCK : Str := APIV1 ++ "RefreshLock/".toList

/-- The lease duration, `3 * time.Second`. -/
def TIMEOUT : Duration := 3 * 1000000000

def StatusOK : Nat := 200
def StatusBadRequest : Nat := 400
def StatusUnauthorized : Nat := 401
def StatusNotFound : Nat := 404
def StatusRequestTimeout : Nat := 408
def StatusGone : Nat := 410
def StatusLocked : Nat := 423

/-! ## Library functions used by `hash` and `lockKey` -/

/-- A `[16]byte`, the result type of `md5.Sum`. -/
abbrev Digest := { l : List (Fin 256) // l.length = 16 }

/-- The two library functions `hash` calls. -/
structure Extern where
  /-- Go `time.Time.String`. -/
  timeString : Time → Str
  /-- Go `md5.Sum` applied to the bytes of a string. -/
  md5Sum : Str → Digest

/-- One lowercase hexadecimal digit. -/
def hexDigit (n : Nat) : Char :=
  match n with
  | 0 => '0' | 1 => '1' | 2 => '2' | 3 => '3'
  | 4 => '4' | 5 => '5' | 6 => '6' | 7 => '7'
  | 8 => '8' | 9 => '9' | 10 => 'a' | 11 => 'b'
  | 12 => 'c' | 13 => 'd' | 14 => 'e' | _ => 'f'

/-- Go `fmt.Sprintf("%x", bs)` for a byte slice: two lowercase hexadecimal
digits per byte. -/
def sprintfHex : List (Fin 256) → Str
  | [] => []
  | b :: bs => hexDigit (b.val / 16) :: hexDigit (b.val % 16) :: sprintfHex bs

/-! ## `lockInfo.go` -/

/-- The `lockInfo` struct.  `mutex` is `true` while the `nsync.TryMutex` is
held. -/
structure lockInfo where
  active : Bool
  created : Time
  refreshed : Time
  ip : Str
  mutex : Bool
deriving DecidableEq, Repr

/-- An HTTP request: `r.URL.Path` and `r.RemoteAddr`. -/
structure Request where
  path : Str
  remoteAddr : Str
deriving DecidableEq, Repr

/-- Go `getIP`: the text before the first `:`. -/
def getIP (addr : Str) : Str :=
  (stringsSplit addr ':').headD []

/-- Go `hash`: the MD5 digest of `seed.String()`, as a slice. -/
def hash (x : Extern) (seed : Time) : List (Fin 256) :=
  (x.md5Sum (x.timeString seed)).val

/-- Go `lockKey`. -/
def lockKey (x : Extern) (t : Time) : Str :=
  sprintfHex (hash x t)

/-- Go `newLockInfo`, with `now` the value of `time.Now()`. -/
def newLockInfo (now : Time) (r : Request) : lockInfo :=
  { active := true
    created := now
    refreshed := now
    ip := getIP r.remoteAddr
    mutex := false }

namespace lockInfo

/-- Go `refresh`, with `now` the value of `time.Now()`. -/
def refresh (now : Time) (li : lockInfo) : lockInfo :=
  { li with refreshed := now }

/-- Go `disable`. -/
def disable (li : lockInfo) : lockInfo :=
  { li with refreshed := unixEpoch, ip := [], active := false }

/-- The effect of a successful `lock` or `tryLockTimeout` on the record. -/
def lock (li : lockInfo) : lockInfo :=
  { li with mutex := true }

/-- Go `unLock`. -/
def unLock (li : lockInfo) : lockInfo :=
  { li with mutex := false }

/-- Go `isActive`. -/
def isActive (li : lockInfo) : Bool :=
  li.active

/-- Go `isOnTime`, with `now` the value of `time.Now()` inside
`time.Since`. -/
def isOnTime (now : Time) (li : lockInfo) (t : Duration) : Bool :=
  decide (timeSub now li.refreshed < t)

/-- Go `key`. -/
def key (x : Extern) (li : lockInfo) : Str :=
  lockKey x li.created

/-- Go `isRequestAuthorithed`, as written: `true` when the key or the
address does NOT match. -/
def isRequestAuthorithed (x : Extern) (li : lockInfo) (r : Request) (key : Str) : Bool :=
  decide (key ≠ li.key x) || decide (getIP r.remoteAddr ≠ li.ip)

/-- Go `expiryTime`, with `now` the value of `time.Now()`. -/
def expiryTime (now : Time) (li : lockInfo) : Duration :=
  timeSub (timeAdd li.refreshed TIMEOUT) now

end lockInfo

/-! ## Process state -/

/-- The process state.  `heap` lists every `lockInfo` ever allocated, each
with the resource name it was allocated for (bookkeeping only, no handler
reads it); a `*lockInfo` is a position in `heap`.  `locks` is the `sync.Map`,
latest store first. -/
structure State where
  clock : Time
  heap : List (Str × lockInfo)
  locks : List (Str × Nat)
deriving DecidableEq, Repr

/-- Apply `f` to position `p` of a heap. -/
def modifyCell (f : lockInfo → lockInfo) : Nat → List (Str × lockInfo) → List (Str × lockInfo)
  | _, [] => []
  | 0, (n, li) :: cs => (n, f li) :: cs
  | p + 1, c :: cs => c :: modifyCell f p cs

namespace State

/-- Go `locks.Load(name)`. -/
def load (s : State) (name : Str) : Option Nat :=
  s.locks.lookup name

/-- Go `locks.Store(name, p)`. -/
def store (s : State) (name : Str) (p : Nat) : State :=
  { s with locks := (name, p) :: s.locks }

/-- Read through a `*lockInfo`. -/
def deref (s : State) (p : Nat) : Option lockInfo :=
  s.heap[p]?.map Prod.snd

/-- Write through a `*lockInfo`: the record at `p` becomes `f` of itself. -/
def update (s : State) (p : Nat) (f : lockInfo → lockInfo) : State :=
  { s with heap := modifyCell f p s.heap }

/-- Allocate a record for resource `name`; the new pointer is the old heap
size. -/
def alloc (s : State) (name : Str) (li : lockInfo) : Nat × State :=
  (s.heap.length, { s with heap := s.heap ++ [(name, li)] })

/-- Go `time.Sleep(d)`: a non-positive duration returns at once. -/
def sleep (s : State) (d : Duration) : State :=
  { s with clock := s.clock + max 0 d }

/-- The state with nothing allocated and an empty registry. -/
def empty (now : Time) : State :=
  { clock := now, heap := [], locks := [] }

end State

/-! ## `lockmanager.go` -/

/-- What the handler wrote to the `http.ResponseWriter`. -/
structure Response where
  status : Nat
  authKey : Option Str
  body : String
deriving DecidableEq, Repr

/-- Go `http.Error(w, msg, code)`. -/
def httpError (msg : String) (code : Nat) : Response :=
  { status := code, authKey := none, body := msg }

/-- How a handler run ends: it returns, it panics (slice out of range, or a
pointer outside the heap), or it waits for ever on `Lock`. -/
inductive Outcome where
  | returned (resp : Response) (s : State)
  | panicked
  | blocked
deriving DecidableEq, Repr

/-- Go `retrieveKey`; the third component is the error, `none` for `nil`. -/
def retrieveKey (path : Str) : Str × Str × Option String :=
  match stringsSplit path '/' with
  | [resource, key] =>
    if resource = [] ∨ key = [] then ([], [], some "Empty content")
    else (resource, key, none)
  | _ => ([], [], some "Partial content")

/-- Lines 143-151 of `apiV1RequestLock`: create the record, store it, answer
with its key. -/
def grantLock (x : Extern) (r : Request) (resource : Str) (s : State) : Outcome :=
  let lockReq := newLockInfo s.clock r
  let (p, s1) := s.alloc resource lockReq
  let s2 := s1.store resource p
  .returned { status := StatusOK, authKey := some (lockReq.key x), body := "Lock Granted" } s2

/-- Go `apiV1RequestLock`. -/
def apiV1RequestLock (x : Extern) (r : Request) (s : State) : Outcome :=
  match sliceFrom r.path APIV1REQUESTLOCK.length with
  | none => .panicked
  | some resource =>
    if resource = [] ∨ '/' ∈ resource then
      .returned (httpError "Api Bad Request" StatusBadRequest) s
    else
      match s.load resource with
      | none => grantLock x r resource s
      | some p =>
        match s.deref p with
        | none => .panicked
        | some linfo =>
          if linfo.mutex then
            -- tryLockTimeout gives up after TIMEOUT
            .returned (httpError "Resource already in use" StatusRequestTimeout) (s.sleep TIMEOUT)
          else
            let s1 := s.update p lockInfo.lock
            if linfo.isActive && linfo.isOnTime s1.clock TIMEOUT then
              .returned (httpError "Resource already in use" StatusLocked)
                (s1.update p lockInfo.unLock)
            else
              grantLock x r resource (s1.update p lockInfo.disable)

/-- Go `apiV1ReleaseLock`.  The path is cut at `len(APIV1REFRESHLOCK)`, as in
the source. -/
def apiV1ReleaseLock (x : Extern) (r : Request) (s : State) : Outcome :=
  match sliceFrom r.path APIV1REFRESHLOCK.length with
  | none => .panicked
  | some rest =>
    match retrieveKey rest with
    | (_, _, some _) => .returned (httpError "Api Bad Request" StatusBadRequest) s
    | (resource, key, none) =>
      match s.load resource with
      | none => .returned (httpError "Resource not Found" StatusNotFound) s
      | some p =>
        match s.deref p with
        | none => .panicked
        | some linfo =>
          if linfo.mutex then .blocked
          else
            let s1 := s.update p lockInfo.lock
            if !linfo.isActive then
              .returned (httpError "Resource not Found" StatusNotFound)
                (s1.update p lockInfo.unLock)
            else if linfo.isRequestAuthorithed x r key then
              .returned (httpError "Not authorized" StatusUnauthorized)
                (s1.update p lockInfo.unLock)
            else
              let s2 := s1.sleep (linfo.expiryTime s1.clock)
              let s3 := s2.update p lockInfo.disable
              .returned { status := StatusOK, authKey := none, body := "Lock Released" }
                (s3.update p lockInfo.unLock)

/-- Go `apiV1RefreshLock`. -/
def apiV1RefreshLock (x : Extern) (r : Request) (s : State) : Outcome :=
  match sliceFrom r.path APIV1REFRESHLOCK.length with
  | none => .panicked
  | some rest =>
    match retrieveKey rest with
    | (_, _, some _) => .returned (httpError "Api Bad Request" StatusBadRequest) s
    | (resource, key, none) =>
      match s.load resource with
      | none => .returned (httpError "Resource not Found" StatusNotFound) s
      | some p =>
        match s.deref p with
        | none => .panicked
        | some linfo =>
          if linfo.mutex then
            -- tryLockTimeout gives up after TIMEOUT
            .returned (httpError "Resource locked, Unable to refresh" StatusLocked)
              (s.sleep TIMEOUT)
          else
            let s1 := s.update p lockInfo.lock
            if !linfo.isActive then
              .returned (httpError "Lock expired and released" StatusGone)
                (s1.update p lockInfo.unLock)
            else if linfo.isRequestAuthorithed x r key then
              .returned (httpError "Not authorized" StatusUnauthorized)
                (s1.update p lockInfo.unLock)
            else
              let s2 := s1.update p (lockInfo.refresh s1.clock)
              .returned { status := StatusOK, authKey := none, body := "Lock Refreshed" }
                (s2.update p lockInfo.unLock)

/-- Go `apiV1`, the router. -/
def apiV1 (x : Extern) (r : Request) (s : State) : Outcome :=
  if APIV1REQUESTLOCK.isPrefixOf r.path then apiV1RequestLock x r s
  else if APIV1RELEASELOCK.isPrefixOf r.path then apiV1ReleaseLock x r s
  else if APIV1REFRESHLOCK.isPrefixOf r.path then apiV1RefreshLock x r s
  else .returned (httpError "Api Call Not Found" StatusNotFound) s


/-! ## Runs of the service -/

/-- The states the service can be in: it starts with an empty registry, and
each step moves the clock forward to some `t` and runs one call through the
router `apiV1` to its return. -/
inductive Reachable (x : Extern) : State → Prop where
  | init (t0 : Time) : Reachable x (State.empty t0)
  | step {s s' : State} (t : Time) (r : Request) (resp : Response) :
      Reachable x s → s.clock ≤ t →
      apiV1 x r { s with clock := t } = .returned resp s' → Reachable x s'

/-- A record is live at `now` when it is active and fresh. -/
def live (now : Time) (li : lockInfo) : Bool :=
  li.isActive && li.isOnTime now TIMEOUT

/-- The registry and the heap agree: a stored pointer leads to a record
allocated for that name whose mutex is free, and an active record is the one
stored under the name it was allocated for. -/
def Consistent (s : State) : Prop :=
  (∀ n p, s.load n = some p → ∃ li, s.heap[p]? = some (n, li) ∧ li.mutex = false) ∧
  (∀ p n li, s.heap[p]? = some (n, li) → li.active = true → s.load n = some p)

/-- The status codes a client sees when it sends the calls of `calls` one
after another, each at its time (never before the previous call returned),
until a call fails to return. -/
def serveAll (x : Extern) : State → List (Time × Request) → List Nat
  | _, [] => []
  | s, (t, r) :: rest =>
    match apiV1 x r { s with clock := max s.clock t } with
    | .returned resp s' => resp.status :: serveAll x s' rest
    | _ => []

/-- The part of `apiV1ReleaseLock` that follows the cut of the path: `rest`
is the string handed to `retrieveKey`. -/
def releaseLockOn (x : Extern) (r : Request) (rest : Str) (s : State) : Outcome :=
  match retrieveKey rest with
  | (_, _, some _) => .returned (httpError "Api Bad Request" StatusBadRequest) s
  | (resource, key, none) =>
    match s.load resource with
    | none => .returned (httpError "Resource not Found" StatusNotFound) s
    | some p =>
      match s.deref p with
      | none => .panicked
      | some linfo =>
        if linfo.mutex then .blocked
        else
          let s1 := s.update p lockInfo.lock
          if !linfo.isActive then
            .returned (httpError "Resource not Found" StatusNotFound)
              (s1.update p lockInfo.unLock)
          else if linfo.isRequestAuthorithed x r key then
            .returned (httpError "Not authorized" StatusUnauthorized)
              (s1.update p lockInfo.unLock)
          else
            let s2 := s1.sleep (linfo.expiryTime s1.clock)
            let s3 := s2.update p lockInfo.disable
            .returned { status := StatusOK, authKey := none, body := "Lock Released" }
              (s3.update p lockInfo.unLock)

/-- The sixteen characters `%x` can print. -/
def hexDigits : Str := "0123456789abcdef".toList

/-- What every operation keeps of a record: `created` is the same, and
`ip` is the same or was cleared by `disable`, which also left the record
inactive. -/
def keepsIdentity (li li' : lockInfo) : Prop :=
  li'.created = li.created ∧ (li'.ip = li.ip ∨ (li'.ip = [] ∧ li'.active = false))

/-- Every record of `s` is still there in `s'`, with its identity kept. -/
def Framed (s s' : State) : Prop :=
  ∀ (p : Nat) (li : lockInfo), s.deref p = some li →
    ∃ li', s'.deref p = some li' ∧ keepsIdentity li li'

/-! ## Concurrent requests

Each call is served by its own goroutine.  A `RequestLock` touches the
shared `sync.Map` twice, in `locks.Load` and in `locks.Store`; another
goroutine can run between the two. -/

/-- The part of `apiV1RequestLock` that follows `locks.Load(resource)`, with
`li` what `Load` returned. -/
def requestLockAfterLoad (x : Extern) (r : Request) (resource : Str) (li : Option Nat)
    (s : State) : Outcome :=
  match li with
  | none => grantLock x r resource s
  | some p =>
    match s.deref p with
    | none => .panicked
    | some linfo =>
      if linfo.mutex then
        .returned (httpError "Resource already in use" StatusRequestTimeout) (s.sleep TIMEOUT)
      else
        let s1 := s.update p lockInfo.lock
        if linfo.isActive && linfo.isOnTime s1.clock TIMEOUT then
          .returned (httpError "Resource already in use" StatusLocked)
            (s1.update p lockInfo.unLock)
        else
          grantLock x r resource (s1.update p lockInfo.disable)

/-- A goroutine serving a `RequestLock`: it has not started, or it holds the
result of `locks.Load`, or it has answered, or it stopped without an answer
(a panic). -/
inductive Task where
  | arrived (r : Request)
  | loaded (r : Request) (resource : Str) (li : Option Nat)
  | answered (resp : Response)
  | stopped
deriving DecidableEq, Repr

/-- One uninterrupted stretch of a goroutine: from the start of
`apiV1RequestLock` up to and including `locks.Load`, or from there to the
end of the handler. -/
def Task.step (x : Extern) : Task → State → Task × State
  | .arrived r, s =>
    match sliceFrom r.path APIV1REQUESTLOCK.length with
    | none => (.stopped, s)
    | some resource =>
      if resource = [] ∨ '/' ∈ resource then
        (.answered (httpError "Api Bad Request" StatusBadRequest), s)
      else (.loaded r resource (s.load resource), s)
  | .loaded r resource li, s =>
    match requestLockAfterLoad x r resource li s with
    | .returned resp s' => (.answered resp, s')
    | _ => (.stopped, s)
  | t, s => (t, s)

/-- Run the goroutines `ts` under a schedule: each entry `(i, t)` lets
goroutine `i` run one stretch at time `t` (the clock never goes back). -/
def runSchedule (x : Extern) : List (Nat × Time) → List Task → State → List Task × State
  | [], ts, s => (ts, s)
  | (i, t) :: rest, ts, s =>
    match ts[i]? with
    | none => runSchedule x rest ts s
    | some task =>
      let now : State := { s with clock := max s.clock t }
      runSchedule x rest (ts.set i (task.step x now).1) (task.step x now).2

/-- Every active record was refreshed in the past. -/
def RefreshedInPast (s : State) : Prop :=
  ∀ (p : Nat) (n : Str) (li : lockInfo),
    s.heap[p]? = some (n, li) → li.active = true → li.refreshed ≤ s.clock

/-! ## Sample inputs

Concrete values on which the handlers are evaluated. -/

/-- A stand-in for `md5.Sum`: the first sixteen character codes modulo 256,
padded with zeros. -/
def sampleSum (s : Str) : Digest :=
  ⟨(s.map (fun c => (Fin.ofNat c.toNat : Fin 256))).take 16
      ++ List.replicate (16 - min 16 s.length) 0, by
    simp only [List.length_append, List.length_take, List.length_map, List.length_replicate]
    omega⟩

/-- A stand-in for `time.Time.String`: the decimal digits of the
nanosecond count, with a sign. -/
def sampleString (t : Time) : Str :=
  (if t < 0 then ['-'] else []) ++ Nat.toDigits 10 t.natAbs

/-- The library stand-ins used in the evaluations. -/
def sampleExtern : Extern :=
  { timeString := sampleString, md5Sum := sampleSum }

/-- A resource name. -/
def door : Str := "door".toList

/-- A caller address. -/
def alice : Str := "10.0.0.1:4242".toList

/-- Another caller address. -/
def bob : Str := "10.0.0.2:5151".toList

/-- The state after `alice` was granted `door` at time `t0`, seen at time
`now`. -/
def heldBy (t0 now : Time) : State :=
  { clock := now
    heap := [(door, { active := true, created := t0, refreshed := t0,
                      ip := getIP alice, mutex := false })]
    locks := [(door, 0)] }

/-- The states `apiV1ReleaseLock` passes through once it holds the mutex of
the record, in the order of the source: after `linfo.lock()` (line 174); on
the path that releases, after `time.Sleep(linfo.expiryTime())` (line 191) and
after `linfo.disable()` (line 196); last, after the deferred
`linfo.unLock()`.  The list is empty when the handler ends before
`linfo.lock()` returns. -/
def releaseLockSteps (x : Extern) (r : Request) (s : State) : List State :=
  match sliceFrom r.path APIV1REFRESHLOCK.length with
  | none => []
  | some rest =>
    match retrieveKey rest with
    | (_, _, some _) => []
    | (resource, key, none) =>
      match s.load resource with
      | none => []
      | some p =>
        match s.deref p with
        | none => []
        | some linfo =>
          if linfo.mutex then []
          else
            let s1 := s.update p lockInfo.lock
            if !linfo.isActive then
              [s1, s1.update p lockInfo.unLock]
            else if linfo.isRequestAuthorithed x r key then
              [s1, s1.update p lockInfo.unLock]
            else
              let s2 := s1.sleep (linfo.expiryTime s1.clock)
              let s3 := s2.update p lockInfo.disable
              [s1, s2, s3, s3.update p lockInfo.unLock]

/-- The state after `alice` was granted `door` at time 0 and, the lease
having run out, `bob` was granted it at time `TIMEOUT`: the record of `alice`
is superseded. -/
def supersededState : State :=
  { clock := 3000000000
    heap := [(door, ⟨false, 0, 0, [], true⟩),
             (door, ⟨true, 3000000000, 3000000000, "10.0.0.2".toList, false⟩)]
    locks := [(door, 1), (door, 0)] }

/-! ## Basic facts -/

theorem stringsSplit_ne_nil (s : Str) (sep : Char) : stringsSplit s sep ≠ [] := by
  induction s with
  | nil => simp [stringsSplit]
  | cons c cs ih =>
    unfold stringsSplit
    split
    · simp
    · split <;> simp

theorem stringsSplit_of_not_mem {s : Str} {sep : Char} (h : sep ∉ s) :
    stringsSplit s sep = [s] := by
  induction s with
  | nil => simp [stringsSplit]
  | cons c cs ih =>
    have hc : c ≠ sep := fun e => h (by simp [e])
    have hcs : sep ∉ cs := fun e => h (by simp [e])
    simp [stringsSplit, hc, ih hcs]

theorem stringsSplit_append {a : Str} {sep : Char} (h : sep ∉ a) (b : Str) :
    stringsSplit (a ++ sep :: b) sep = a :: stringsSplit b sep := by
  induction a with
  | nil => simp [stringsSplit]
  | cons c cs ih =>
    have hc : c ≠ sep := fun e => h (by simp [e])
    have hcs : sep ∉ cs := fun e => h (by simp [e])
    simp [stringsSplit, hc, ih hcs]

theorem sliceFrom_append (a b : Str) : sliceFrom (a ++ b) a.length = some b := by
  simp [sliceFrom]

theorem retrieveKey_wellformed {R k : Str} (hR : R ≠ []) (hRs : '/' ∉ R)
    (hk : k ≠ []) (hks : '/' ∉ k) :
    retrieveKey (R ++ '/' :: k) = (R, k, none) := by
  simp [retrieveKey, stringsSplit_append hRs, stringsSplit_of_not_mem hks, hR, hk]

theorem timeSub_lt_TIMEOUT (t u : Time) : timeSub t u < TIMEOUT ↔ t - u < TIMEOUT := by
  unfold timeSub maxDuration minDuration TIMEOUT
  simp only [Time, Duration] at *
  split
  · omega
  · split <;> omega


/-! ### Keys -/

theorem hexDigit_injective_fin : ∀ a b : Fin 16, hexDigit a.val = hexDigit b.val → a = b := by
  decide

theorem hexDigit_inj {a b : Nat} (ha : a < 16) (hb : b < 16)
    (h : hexDigit a = hexDigit b) : a = b := by
  have := hexDigit_injective_fin ⟨a, ha⟩ ⟨b, hb⟩ h
  exact congrArg Fin.val this

theorem sprintfHex_injective : ∀ l m : List (Fin 256), sprintfHex l = sprintfHex m → l = m := by
  intro l
  induction l with
  | nil =>
    intro m h
    cases m with
    | nil => rfl
    | cons b bs => simp [sprintfHex] at h
  | cons a as ih =>
    intro m h
    cases m with
    | nil => simp [sprintfHex] at h
    | cons b bs =>
      simp only [sprintfHex, List.cons.injEq] at h
      obtain ⟨h1, h2, h3⟩ := h
      have hq := hexDigit_inj (by omega) (by omega) h1
      have hr := hexDigit_inj (Nat.mod_lt _ (by decide)) (Nat.mod_lt _ (by decide)) h2
      have hab : a = b := Fin.ext (by omega)
      rw [hab, ih bs h3]

theorem lockKey_ne_of_digest_ne (x : Extern) {t u : Time}
    (h : x.md5Sum (x.timeString t) ≠ x.md5Sum (x.timeString u)) :
    lockKey x t ≠ lockKey x u := by
  intro e
  exact h (Subtype.ext (sprintfHex_injective _ _ e))

theorem hexDigit_ne_slash (n : Nat) : hexDigit n ≠ '/' := by
  unfold hexDigit
  split <;> decide

theorem slash_not_mem_sprintfHex (l : List (Fin 256)) : '/' ∉ sprintfHex l := by
  induction l with
  | nil => simp [sprintfHex]
  | cons b bs ih =>
    simp only [sprintfHex, List.mem_cons, not_or]
    exact ⟨(hexDigit_ne_slash _).symm, (hexDigit_ne_slash _).symm, ih⟩

theorem slash_not_mem_lockKey (x : Extern) (t : Time) : '/' ∉ lockKey x t :=
  slash_not_mem_sprintfHex _

theorem lockKey_ne_nil (x : Extern) (t : Time) : lockKey x t ≠ [] := by
  unfold lockKey hash
  obtain ⟨l, hl⟩ := x.md5Sum (x.timeString t)
  cases l with
  | nil => simp at hl
  | cons b bs => simp [sprintfHex]

/-! ### Heap and registry -/

theorem modifyCell_length (f : lockInfo → lockInfo) (p : Nat) (h : List (Str × lockInfo)) :
    (modifyCell f p h).length = h.length := by
  induction h generalizing p with
  | nil => cases p <;> rfl
  | cons c cs ih =>
    cases p with
    | zero => rfl
    | succ p => simp [modifyCell, ih]

theorem modifyCell_getElem? (f : lockInfo → lockInfo) (p q : Nat) (h : List (Str × lockInfo)) :
    (modifyCell f p h)[q]? =
      if q = p then h[q]?.map (fun c => (c.1, f c.2)) else h[q]? := by
  induction h generalizing p q with
  | nil => cases p <;> simp [modifyCell]
  | cons c cs ih =>
    cases p with
    | zero =>
      cases q with
      | zero => simp [modifyCell]
      | succ q => simp [modifyCell]
    | succ p =>
      cases q with
      | zero => simp [modifyCell]
      | succ q => simp [modifyCell, ih]

theorem modifyCell_modifyCell (f g : lockInfo → lockInfo) (p : Nat) (h : List (Str × lockInfo)) :
    modifyCell g p (modifyCell f p h) = modifyCell (g ∘ f) p h := by
  induction h generalizing p with
  | nil => cases p <;> rfl
  | cons c cs ih =>
    cases p with
    | zero => rfl
    | succ p => simp [modifyCell, ih]

theorem modifyCell_congr {f g : lockInfo → lockInfo} {p : Nat} {h : List (Str × lockInfo)}
    {li : lockInfo} (hp : h[p]?.map Prod.snd = some li) (hfg : f li = g li) :
    modifyCell f p h = modifyCell g p h := by
  induction h generalizing p with
  | nil => cases p <;> rfl
  | cons c cs ih =>
    obtain ⟨n, l⟩ := c
    cases p with
    | zero =>
      have hl : l = li := by
        simpa only [List.getElem?_cons_zero, Option.map_some', Option.some.injEq] using hp
      subst hl
      simp only [modifyCell, hfg]
    | succ p =>
      have hp2 : cs[p]?.map Prod.snd = some li := by
        simpa only [List.getElem?_cons_succ] using hp
      simp only [modifyCell, ih hp2]

theorem modifyCell_id (p : Nat) (h : List (Str × lockInfo)) : modifyCell id p h = h := by
  induction h generalizing p with
  | nil => cases p <;> rfl
  | cons c cs ih =>
    cases p with
    | zero => rfl
    | succ p => simp [modifyCell, ih]

namespace State

@[simp] theorem update_clock (s : State) (p : Nat) (f : lockInfo → lockInfo) :
    (s.update p f).clock = s.clock := rfl

@[simp] theorem update_locks (s : State) (p : Nat) (f : lockInfo → lockInfo) :
    (s.update p f).locks = s.locks := rfl

@[simp] theorem load_update (s : State) (p : Nat) (f : lockInfo → lockInfo) (n : Str) :
    (s.update p f).load n = s.load n := rfl

theorem deref_update (s : State) (p q : Nat) (f : lockInfo → lockInfo) :
    (s.update p f).deref q = if q = p then (s.deref q).map f else s.deref q := by
  unfold deref update
  simp only [modifyCell_getElem?]
  split
  · cases s.heap[q]? <;> simp
  · rfl

theorem update_update (s : State) (p : Nat) (f g : lockInfo → lockInfo) :
    (s.update p f).update p g = s.update p (g ∘ f) := by
  simp [update, modifyCell_modifyCell]

theorem update_congr {s : State} {p : Nat} {li : lockInfo} {f g : lockInfo → lockInfo}
    (hp : s.deref p = some li) (hfg : f li = g li) : s.update p f = s.update p g := by
  unfold update
  rw [modifyCell_congr hp hfg]

theorem update_eq_self {s : State} {p : Nat} {li : lockInfo} {f : lockInfo → lockInfo}
    (hp : s.deref p = some li) (hf : f li = li) : s.update p f = s := by
  have h := update_congr (g := id) hp (by simpa using hf)
  rw [h]
  simp [update, modifyCell_id]

theorem update_sleep (s : State) (p : Nat) (f : lockInfo → lockInfo) (d : Duration) :
    (s.sleep d).update p f = (s.update p f).sleep d := rfl

@[simp] theorem deref_sleep (s : State) (d : Duration) (p : Nat) :
    (s.sleep d).deref p = s.deref p := rfl

@[simp] theorem load_sleep (s : State) (d : Duration) (n : Str) :
    (s.sleep d).load n = s.load n := rfl

theorem deref_lt {s : State} {p : Nat} {li : lockInfo} (hp : s.deref p = some li) :
    p < s.heap.length := by
  unfold deref at hp
  by_contra hge
  have : s.heap[p]? = none := List.getElem?_eq_none (by omega)
  simp [this] at hp

end State


/-! ## RequestLock -/

theorem lock_unLock_of_free {li : lockInfo} (h : li.mutex = false) :
    (lockInfo.unLock ∘ lockInfo.lock) li = li := by
  cases li
  simp_all [lockInfo.unLock, lockInfo.lock]

theorem grantLock_eq (x : Extern) (r : Request) (resource : Str) (s : State) :
    grantLock x r resource s =
      .returned ⟨200, some (lockKey x s.clock), "Lock Granted"⟩
        { clock := s.clock
          heap := s.heap ++ [(resource, newLockInfo s.clock r)]
          locks := (resource, s.heap.length) :: s.locks } := rfl

/-- C1: on a well-formed name `R` that has no record, `RequestLock` answers
200 with `AuthKey = lockKey now`; afterwards the registry maps `R` to a
record that is active, created and refreshed at `now`, owned by
`getIP addr` and unlocked, and every other name has the entry it had. -/
theorem requestLock_absent_granted (x : Extern) (s : State) (R addr : Str)
    (hR : R ≠ []) (hslash : '/' ∉ R) (habsent : s.load R = none) :
    ∃ s' p,
      apiV1RequestLock x ⟨APIV1REQUESTLOCK ++ R, addr⟩ s
        = .returned ⟨200, some (lockKey x s.clock), "Lock Granted"⟩ s' ∧
      s'.load R = some p ∧
      s'.deref p = some ⟨true, s.clock, s.clock, getIP addr, false⟩ ∧
      ∀ R', R' ≠ R → s'.load R' = s.load R' := by
  refine ⟨{ clock := s.clock
            heap := s.heap ++ [(R, newLockInfo s.clock ⟨APIV1REQUESTLOCK ++ R, addr⟩)]
            locks := (R, s.heap.length) :: s.locks }, s.heap.length, ?_, ?_, ?_, ?_⟩
  · unfold apiV1RequestLock
    simp only [sliceFrom_append, hR, hslash, or_self, if_false, habsent]
    exact grantLock_eq x _ R s
  · simp [State.load]
  · simp [State.deref, newLockInfo]
  · intro R' hne
    have hb : (R' == R) = false := by simpa using hne
    simp [State.load, List.lookup, hb]

theorem requestLock_absent_granted_witness :
    (door ≠ [] ∧ '/' ∉ door ∧ (State.empty 0).load door = none) ∧
    ∃ s' p,
      apiV1RequestLock sampleExtern ⟨APIV1REQUESTLOCK ++ door, alice⟩ (State.empty 0)
        = .returned ⟨200, some (lockKey sampleExtern (State.empty 0).clock), "Lock Granted"⟩ s' ∧
      s'.load door = some p ∧
      s'.deref p = some ⟨true, (State.empty 0).clock, (State.empty 0).clock, getIP alice, false⟩ ∧
      ∀ R', R' ≠ door → s'.load R' = (State.empty 0).load R' :=
  ⟨⟨by decide, by decide, by decide⟩,
    requestLock_absent_granted sampleExtern (State.empty 0) door alice
      (by decide) (by decide) (by decide)⟩

/-- C2: when the registry maps `R` to a record that is active, fresh
(`now - refreshed < TIMEOUT`) and unlocked, `RequestLock` answers 423 with
no key and the whole state (registry, every record with its mutex, clock)
is what it was. -/
theorem requestLock_live_locked (x : Extern) (s : State) (R addr : Str) (p : Nat)
    (li : lockInfo) (hR : R ≠ []) (hslash : '/' ∉ R)
    (hload : s.load R = some p) (hderef : s.deref p = some li)
    (hactive : li.active = true) (hfresh : s.clock - li.refreshed < TIMEOUT)
    (hfree : li.mutex = false) :
    apiV1RequestLock x ⟨APIV1REQUESTLOCK ++ R, addr⟩ s
      = .returned ⟨423, none, "Resource already in use"⟩ s := by
  have hon : li.isOnTime s.clock TIMEOUT = true := by
    simpa [lockInfo.isOnTime, timeSub_lt_TIMEOUT] using hfresh
  unfold apiV1RequestLock
  simp only [sliceFrom_append, hR, hslash, or_self, if_false, hload, hderef, hfree,
    lockInfo.isActive, hactive, State.update_clock, hon, Bool.and_self, if_true,
    State.update_update, Bool.false_eq_true]
  rw [State.update_eq_self hderef (lock_unLock_of_free hfree)]
  rfl

theorem requestLock_live_locked_witness :
    (door ≠ [] ∧ '/' ∉ door ∧ (heldBy 0 5).load door = some 0 ∧
      (heldBy 0 5).deref 0 = some ⟨true, 0, 0, getIP alice, false⟩ ∧
      (heldBy 0 5).clock - 0 < TIMEOUT) ∧
    apiV1RequestLock sampleExtern ⟨APIV1REQUESTLOCK ++ door, bob⟩ (heldBy 0 5)
      = .returned ⟨423, none, "Resource already in use"⟩ (heldBy 0 5) :=
  ⟨⟨by decide, by decide, by decide, by decide, by decide⟩,
    requestLock_live_locked sampleExtern (heldBy 0 5) door bob 0
      ⟨true, 0, 0, getIP alice, false⟩ (by decide) (by decide) (by decide) (by decide)
      rfl (by decide) rfl⟩


/-- What `RequestLock` does on a lease that has run out: a record for `R`
granted at `t0` and neither refreshed nor released since (active,
`created = refreshed = t0`, unlocked) is seen at a time `now` with
`now - t0 ≥ TIMEOUT`, equality included.  The handler answers 200 with the
key `lockKey now`, and the registry maps `R` to a newly allocated record
created at `now`.  The new key differs from the key of the first grant
exactly when the library digest tells the two creation times apart. -/
theorem requestLock_expired_regranted (x : Extern) (s : State) (R addr : Str) (p : Nat)
    (li : lockInfo) (t0 : Time) (hR : R ≠ []) (hslash : '/' ∉ R)
    (hload : s.load R = some p) (hderef : s.deref p = some li)
    (hactive : li.active = true) (hcreated : li.created = t0) (hrefreshed : li.refreshed = t0)
    (hfree : li.mutex = false) (hexpired : s.clock - t0 ≥ TIMEOUT) :
    ∃ s' q,
      apiV1RequestLock x ⟨APIV1REQUESTLOCK ++ R, addr⟩ s
        = .returned ⟨200, some (lockKey x s.clock), "Lock Granted"⟩ s' ∧
      s'.load R = some q ∧ q ≠ p ∧ s.deref q = none ∧
      s'.deref q = some ⟨true, s.clock, s.clock, getIP addr, false⟩ ∧
      (lockKey x s.clock ≠ li.key x ↔
        x.md5Sum (x.timeString s.clock) ≠ x.md5Sum (x.timeString t0)) := by
  have hoff : li.isOnTime s.clock TIMEOUT = false := by
    have : ¬ (s.clock - li.refreshed < TIMEOUT) := by
      rw [hrefreshed]
      simp only [Time, Duration] at *
      omega
    simpa [lockInfo.isOnTime, timeSub_lt_TIMEOUT] using this
  have hp : p < s.heap.length := State.deref_lt hderef
  refine ⟨{ clock := s.clock
            heap := modifyCell lockInfo.disable p (modifyCell lockInfo.lock p s.heap)
              ++ [(R, newLockInfo s.clock ⟨APIV1REQUESTLOCK ++ R, addr⟩)]
            locks := (R, s.heap.length) :: s.locks }, s.heap.length, ?_, ?_, ?_, ?_, ?_, ?_⟩
  · unfold apiV1RequestLock
    simp only [sliceFrom_append, hR, hslash, or_self, if_false, hload, hderef, hfree,
      lockInfo.isActive, hactive, State.update_clock, hoff, Bool.and_false,
      Bool.false_eq_true]
    rw [grantLock_eq]
    simp [State.update, modifyCell_length]
  · simp [State.load]
  · omega
  · simp [State.deref]
  · have hlen : (modifyCell lockInfo.disable p (modifyCell lockInfo.lock p s.heap)).length
        = s.heap.length := by simp [modifyCell_length]
    simp [State.deref, newLockInfo, List.getElem?_append_right, hlen]
  · rw [lockInfo.key, hcreated]
    constructor
    · intro hne hdig
      exact hne (by unfold lockKey hash; rw [hdig])
    · exact lockKey_ne_of_digest_ne x

/-! ## ReleaseLock and RefreshLock -/

theorem release_slice (rest : Str) :
    sliceFrom (APIV1RELEASELOCK ++ rest) APIV1REFRESHLOCK.length = some rest := by
  have h : APIV1REFRESHLOCK.length = APIV1RELEASELOCK.length := by decide
  rw [h, sliceFrom_append]

theorem unLock_disable_lock (li : lockInfo) :
    (lockInfo.unLock ∘ lockInfo.disable ∘ lockInfo.lock) li
      = ⟨false, li.created, unixEpoch, [], false⟩ := rfl

theorem isRequestAuthorithed_of_owner (x : Extern) (li : lockInfo) (path addr : Str)
    (howner : li.ip = getIP addr) :
    li.isRequestAuthorithed x ⟨path, addr⟩ (li.key x) = false := by
  simp [lockInfo.isRequestAuthorithed, howner]

theorem isRequestAuthorithed_of_key_ne (x : Extern) (li : lockInfo) (r : Request) {k : Str}
    (hne : k ≠ li.key x) : li.isRequestAuthorithed x r k = true := by
  simp [lockInfo.isRequestAuthorithed, hne]

/-- The inactive branch of `apiV1ReleaseLock`: 404 and nothing changes. -/
theorem releaseLock_inactive (x : Extern) (s : State) (R k addr : Str) (p : Nat)
    (li : lockInfo) (hR : R ≠ []) (hslash : '/' ∉ R) (hk : k ≠ []) (hks : '/' ∉ k)
    (hload : s.load R = some p) (hderef : s.deref p = some li)
    (hinactive : li.active = false) (hfree : li.mutex = false) :
    apiV1ReleaseLock x ⟨APIV1RELEASELOCK ++ (R ++ '/' :: k), addr⟩ s
      = .returned ⟨404, none, "Resource not Found"⟩ s := by
  unfold apiV1ReleaseLock
  simp only [release_slice, retrieveKey_wellformed hR hslash hk hks, hload, hderef, hfree,
    lockInfo.isActive, hinactive, Bool.not_false, if_true, State.update_update,
    Bool.false_eq_true, if_false]
  rw [State.update_eq_self hderef (lock_unLock_of_free hfree)]
  rfl

/-- The successful branch of `apiV1ReleaseLock`, with the state it leaves. -/
theorem releaseLock_released (x : Extern) (s : State) (R addr : Str) (p : Nat)
    (li : lockInfo) (hR : R ≠ []) (hslash : '/' ∉ R)
    (hload : s.load R = some p) (hderef : s.deref p = some li)
    (hactive : li.active = true) (hfree : li.mutex = false) (howner : li.ip = getIP addr) :
    apiV1ReleaseLock x ⟨APIV1RELEASELOCK ++ (R ++ '/' :: li.key x), addr⟩ s
      = .returned ⟨200, none, "Lock Released"⟩
          ((s.sleep (li.expiryTime s.clock)).update p
            (lockInfo.unLock ∘ lockInfo.disable ∘ lockInfo.lock)) := by
  unfold apiV1ReleaseLock
  simp only [release_slice,
    retrieveKey_wellformed hR hslash (lockKey_ne_nil x _) (slash_not_mem_lockKey x _),
    lockInfo.key, hload, hderef, hfree, lockInfo.isActive, hactive, Bool.not_true,
    Bool.false_eq_true, if_false]
  have hauth := isRequestAuthorithed_of_owner x li
    (APIV1RELEASELOCK ++ (R ++ '/' :: lockKey x li.created)) addr howner
  rw [lockInfo.key] at hauth
  simp only [hauth, Bool.false_eq_true, if_false, State.update_clock, State.update_sleep,
    State.update_update]
  rfl

/-- C4: an active, unlocked record for `R` is owned by the caller (`ip` is
the caller's address) and has key `k = li.key`.  `ReleaseLock` with a
well-formed key `k'` different from `k` answers 401 and leaves the whole
state, hence every field of the record and its mutex, as it was; a
`ReleaseLock` with `k` from the same caller at any later time then answers
200. -/
theorem releaseLock_wrong_key_then_right (x : Extern) (s : State) (R k' addr : Str) (p : Nat)
    (li : lockInfo) (hR : R ≠ []) (hslash : '/' ∉ R) (hk : k' ≠ []) (hks : '/' ∉ k')
    (hload : s.load R = some p) (hderef : s.deref p = some li)
    (hactive : li.active = true) (hfree : li.mutex = false) (howner : li.ip = getIP addr)
    (hne : k' ≠ li.key x) :
    ∃ s1,
      apiV1ReleaseLock x ⟨APIV1RELEASELOCK ++ (R ++ '/' :: k'), addr⟩ s
        = .returned ⟨401, none, "Not authorized"⟩ s1 ∧
      s1 = s ∧
      ∀ t : Time, s1.clock ≤ t → ∃ s2,
        apiV1ReleaseLock x ⟨APIV1RELEASELOCK ++ (R ++ '/' :: li.key x), addr⟩
            { s1 with clock := t }
          = .returned ⟨200, none, "Lock Released"⟩ s2 := by
  refine ⟨s, ?_, rfl, ?_⟩
  · unfold apiV1ReleaseLock
    simp only [release_slice, retrieveKey_wellformed hR hslash hk hks, hload, hderef, hfree,
      lockInfo.isActive, hactive, Bool.not_true, Bool.false_eq_true, if_false,
      isRequestAuthorithed_of_key_ne x li _ hne, if_true, State.update_update]
    rw [State.update_eq_self hderef (lock_unLock_of_free hfree)]
    rfl
  · intro t _
    exact ⟨_, releaseLock_released x { s with clock := t } R addr p li hR hslash hload hderef
      hactive hfree howner⟩


theorem releaseLock_wrong_key_then_right_witness :
    (door ≠ [] ∧ '/' ∉ door ∧ "unauthorized".toList ≠ [] ∧ '/' ∉ "unauthorized".toList ∧
      (heldBy 0 5).load door = some 0 ∧
      (heldBy 0 5).deref 0 = some ⟨true, 0, 0, getIP alice, false⟩ ∧
      "unauthorized".toList ≠ lockInfo.key sampleExtern ⟨true, 0, 0, getIP alice, false⟩) ∧
    ∃ s1,
      apiV1ReleaseLock sampleExtern
          ⟨APIV1RELEASELOCK ++ (door ++ '/' :: "unauthorized".toList), alice⟩ (heldBy 0 5)
        = .returned ⟨401, none, "Not authorized"⟩ s1 ∧
      s1 = heldBy 0 5 ∧
      ∀ t : Time, s1.clock ≤ t → ∃ s2,
        apiV1ReleaseLock sampleExtern
            ⟨APIV1RELEASELOCK
              ++ (door ++ '/' :: lockInfo.key sampleExtern ⟨true, 0, 0, getIP alice, false⟩),
              alice⟩
            { s1 with clock := t }
          = .returned ⟨200, none, "Lock Released"⟩ s2 :=
  ⟨⟨by decide, by decide, by decide, by decide, by decide, by decide, by decide⟩,
    releaseLock_wrong_key_then_right sampleExtern (heldBy 0 5) door "unauthorized".toList
      alice 0 ⟨true, 0, 0, getIP alice, false⟩ (by decide) (by decide) (by decide) (by decide)
      (by decide) (by decide) rfl rfl rfl (by decide)⟩

/-- C5: on an active, unlocked record for `R` owned by the caller, the
first `ReleaseLock` with the record's key answers 200 and leaves the record
inactive; the same call repeated at any later time, with nothing in between,
answers 404 and leaves the whole state as it was. -/
theorem releaseLock_once (x : Extern) (s : State) (R addr : Str) (p : Nat)
    (li : lockInfo) (hR : R ≠ []) (hslash : '/' ∉ R)
    (hload : s.load R = some p) (hderef : s.deref p = some li)
    (hactive : li.active = true) (hfree : li.mutex = false) (howner : li.ip = getIP addr) :
    ∃ s1 li1,
      apiV1ReleaseLock x ⟨APIV1RELEASELOCK ++ (R ++ '/' :: li.key x), addr⟩ s
        = .returned ⟨200, none, "Lock Released"⟩ s1 ∧
      s1.load R = some p ∧ s1.deref p = some li1 ∧ li1.active = false ∧
      ∀ t : Time, s1.clock ≤ t →
        apiV1ReleaseLock x ⟨APIV1RELEASELOCK ++ (R ++ '/' :: li.key x), addr⟩
            { s1 with clock := t }
          = .returned ⟨404, none, "Resource not Found"⟩ { s1 with clock := t } := by
  have hd : ((s.sleep (li.expiryTime s.clock)).update p
      (lockInfo.unLock ∘ lockInfo.disable ∘ lockInfo.lock)).deref p
        = some ⟨false, li.created, unixEpoch, [], false⟩ := by
    rw [State.deref_update, if_pos rfl, State.deref_sleep, hderef]
    rfl
  refine ⟨_, ⟨false, li.created, unixEpoch, [], false⟩,
    releaseLock_released x s R addr p li hR hslash hload hderef hactive hfree howner,
    hload, hd, rfl, ?_⟩
  intro t _
  exact releaseLock_inactive x _ R (li.key x) addr p _ hR hslash (lockKey_ne_nil x _)
    (slash_not_mem_lockKey x _) hload hd rfl rfl

theorem releaseLock_once_witness :
    (door ≠ [] ∧ '/' ∉ door ∧ (heldBy 0 5).load door = some 0 ∧
      (heldBy 0 5).deref 0 = some ⟨true, 0, 0, getIP alice, false⟩) ∧
    ∃ s1 li1,
      apiV1ReleaseLock sampleExtern
          ⟨APIV1RELEASELOCK
            ++ (door ++ '/' :: lockInfo.key sampleExtern ⟨true, 0, 0, getIP alice, false⟩),
            alice⟩ (heldBy 0 5)
        = .returned ⟨200, none, "Lock Released"⟩ s1 ∧
      s1.load door = some 0 ∧ s1.deref 0 = some li1 ∧ li1.active = false ∧
      ∀ t : Time, s1.clock ≤ t →
        apiV1ReleaseLock sampleExtern
            ⟨APIV1RELEASELOCK
              ++ (door ++ '/' :: lockInfo.key sampleExtern ⟨true, 0, 0, getIP alice, false⟩),
              alice⟩
            { s1 with clock := t }
          = .returned ⟨404, none, "Resource not Found"⟩ { s1 with clock := t } :=
  ⟨⟨by decide, by decide, by decide, by decide⟩,
    releaseLock_once sampleExtern (heldBy 0 5) door alice 0 ⟨true, 0, 0, getIP alice, false⟩
      (by decide) (by decide) (by decide) (by decide) rfl rfl rfl⟩

theorem refresh_slice (rest : Str) :
    sliceFrom (APIV1REFRESHLOCK ++ rest) APIV1REFRESHLOCK.length = some rest :=
  sliceFrom_append _ _

/-- The successful branch of `apiV1RefreshLock`, with the state it leaves. -/
theorem refreshLock_refreshed (x : Extern) (s : State) (R addr : Str) (p : Nat)
    (li : lockInfo) (hR : R ≠ []) (hslash : '/' ∉ R)
    (hload : s.load R = some p) (hderef : s.deref p = some li)
    (hactive : li.active = true) (hfree : li.mutex = false) (howner : li.ip = getIP addr) :
    apiV1RefreshLock x ⟨APIV1REFRESHLOCK ++ (R ++ '/' :: li.key x), addr⟩ s
      = .returned ⟨200, none, "Lock Refreshed"⟩
          (s.update p (lockInfo.unLock ∘ lockInfo.refresh s.clock ∘ lockInfo.lock)) := by
  unfold apiV1RefreshLock
  simp only [refresh_slice,
    retrieveKey_wellformed hR hslash (lockKey_ne_nil x _) (slash_not_mem_lockKey x _),
    lockInfo.key, hload, hderef, hfree, lockInfo.isActive, hactive, Bool.not_true,
    Bool.false_eq_true, if_false]
  have hauth := isRequestAuthorithed_of_owner x li
    (APIV1REFRESHLOCK ++ (R ++ '/' :: lockKey x li.created)) addr howner
  rw [lockInfo.key] at hauth
  simp only [hauth, Bool.false_eq_true, if_false, State.update_clock, State.update_update]
  rfl

/-- The inactive branch of `apiV1RefreshLock`: 410 and nothing changes. -/
theorem refreshLock_inactive (x : Extern) (s : State) (R k addr : Str) (p : Nat)
    (li : lockInfo) (hR : R ≠ []) (hslash : '/' ∉ R) (hk : k ≠ []) (hks : '/' ∉ k)
    (hload : s.load R = some p) (hderef : s.deref p = some li)
    (hinactive : li.active = false) (hfree : li.mutex = false) :
    apiV1RefreshLock x ⟨APIV1REFRESHLOCK ++ (R ++ '/' :: k), addr⟩ s
      = .returned ⟨410, none, "Lock expired and released"⟩ s := by
  unfold apiV1RefreshLock
  simp only [refresh_slice, retrieveKey_wellformed hR hslash hk hks, hload, hderef, hfree,
    lockInfo.isActive, hinactive, Bool.not_false, if_true, State.update_update,
    Bool.false_eq_true, if_false]
  rw [State.update_eq_self hderef (lock_unLock_of_free hfree)]
  rfl

theorem deref_refreshed {s : State} {p : Nat} {li : lockInfo} (now : Time)
    (hderef : s.deref p = some li) (hfree : li.mutex = false) :
    (s.update p (lockInfo.unLock ∘ lockInfo.refresh now ∘ lockInfo.lock)).deref p
      = some { li with refreshed := now } := by
  rw [State.deref_update, if_pos rfl, hderef]
  cases li
  simp_all [lockInfo.unLock, lockInfo.refresh, lockInfo.lock]

/-- C6: on an active, fresh, unlocked record for `R` owned by the caller,
`RefreshLock` with the record's key at time `now` answers 200 and the record
becomes the old one with `refreshed = now`: `active`, `created` (hence the
key) and `ip` are kept.  From `now` on the record is fresh exactly at the
times `t < now + TIMEOUT`. -/
theorem refreshLock_fresh_extends (x : Extern) (s : State) (R addr : Str) (p : Nat)
    (li : lockInfo) (hR : R ≠ []) (hslash : '/' ∉ R)
    (hload : s.load R = some p) (hderef : s.deref p = some li)
    (hactive : li.active = true) (hfresh : s.clock - li.refreshed < TIMEOUT)
    (hfree : li.mutex = false) (howner : li.ip = getIP addr) :
    ∃ s' li',
      apiV1RefreshLock x ⟨APIV1REFRESHLOCK ++ (R ++ '/' :: li.key x), addr⟩ s
        = .returned ⟨200, none, "Lock Refreshed"⟩ s' ∧
      s'.load R = some p ∧ s'.deref p = some li' ∧
      li'.refreshed = s.clock ∧ li'.active = li.active ∧ li'.created = li.created ∧
      li'.key x = li.key x ∧ li'.ip = li.ip ∧ li'.mutex = false ∧
      ∀ t : Time, s.clock ≤ t → (li'.isOnTime t TIMEOUT = true ↔ t < s.clock + TIMEOUT) := by
  have _ := hfresh
  refine ⟨_, { li with refreshed := s.clock },
    refreshLock_refreshed x s R addr p li hR hslash hload hderef hactive hfree howner,
    hload, deref_refreshed s.clock hderef hfree, rfl, rfl, rfl, rfl, rfl, hfree, ?_⟩
  intro t _
  simp only [lockInfo.isOnTime, decide_eq_true_eq, timeSub_lt_TIMEOUT]
  simp only [Time, Duration] at *
  omega

theorem refreshLock_fresh_extends_witness :
    (door ≠ [] ∧ '/' ∉ door ∧ (heldBy 0 5).load door = some 0 ∧
      (heldBy 0 5).deref 0 = some ⟨true, 0, 0, getIP alice, false⟩ ∧
      (heldBy 0 5).clock - 0 < TIMEOUT) ∧
    ∃ s' li',
      apiV1RefreshLock sampleExtern
          ⟨APIV1REFRESHLOCK
            ++ (door ++ '/' :: lockInfo.key sampleExtern ⟨true, 0, 0, getIP alice, false⟩),
            alice⟩ (heldBy 0 5)
        = .returned ⟨200, none, "Lock Refreshed"⟩ s' ∧
      s'.load door = some 0 ∧ s'.deref 0 = some li' ∧
      li'.refreshed = (heldBy 0 5).clock ∧ li'.active = true ∧ li'.created = 0 ∧
      li'.key sampleExtern = lockInfo.key sampleExtern ⟨true, 0, 0, getIP alice, false⟩ ∧
      li'.ip = getIP alice ∧ li'.mutex = false ∧
      ∀ t : Time, (heldBy 0 5).clock ≤ t →
        (li'.isOnTime t TIMEOUT = true ↔ t < (heldBy 0 5).clock + TIMEOUT) :=
  ⟨⟨by decide, by decide, by decide, by decide, by decide⟩,
    refreshLock_fresh_extends sampleExtern (heldBy 0 5) door alice 0
      ⟨true, 0, 0, getIP alice, false⟩ (by decide) (by decide) (by decide) (by decide)
      rfl (by decide) rfl rfl⟩


/-- C7, the failing input: `alice` is granted `door` at time 0 and nothing
else happens; at time `TIMEOUT`, when the lease has run out, her
`RefreshLock` with the right key answers 200, not 410, and moves `refreshed`
to the time of the call: the handler never calls `isOnTime`. -/
theorem refreshLock_expired_counterexample :
    apiV1RequestLock sampleExtern ⟨APIV1REQUESTLOCK ++ door, alice⟩ (State.empty 0)
      = .returned ⟨200, some (lockKey sampleExtern 0), "Lock Granted"⟩ (heldBy 0 0) ∧
    (heldBy 0 3000000000).clock - 0 ≥ TIMEOUT ∧
    apiV1RefreshLock sampleExtern
        ⟨APIV1REFRESHLOCK ++ (door ++ '/' :: lockKey sampleExtern 0), alice⟩
        (heldBy 0 3000000000)
      = .returned ⟨200, none, "Lock Refreshed"⟩
          { clock := 3000000000
            heap := [(door, ⟨true, 0, 3000000000, getIP alice, false⟩)]
            locks := [(door, 0)] } := by
  decide

/-- What `apiV1RefreshLock` does on a lease that has run out: on an active,
unlocked record for `R` owned by the caller, at a time `now` with
`now - refreshed ≥ TIMEOUT`, `RefreshLock` with the record's key answers 200
and sets `refreshed = now`, keeping `active`, `created` and `ip`. -/
theorem refreshLock_expired_still_refreshes (x : Extern) (s : State) (R addr : Str) (p : Nat)
    (li : lockInfo) (hR : R ≠ []) (hslash : '/' ∉ R)
    (hload : s.load R = some p) (hderef : s.deref p = some li)
    (hactive : li.active = true) (hexpired : s.clock - li.refreshed ≥ TIMEOUT)
    (hfree : li.mutex = false) (howner : li.ip = getIP addr) :
    ∃ s',
      apiV1RefreshLock x ⟨APIV1REFRESHLOCK ++ (R ++ '/' :: li.key x), addr⟩ s
        = .returned ⟨200, none, "Lock Refreshed"⟩ s' ∧
      s'.load R = some p ∧
      s'.deref p = some ⟨li.active, li.created, s.clock, li.ip, false⟩ := by
  have _ := hexpired
  refine ⟨_, refreshLock_refreshed x s R addr p li hR hslash hload hderef hactive hfree howner,
    hload, ?_⟩
  rw [deref_refreshed s.clock hderef hfree]
  cases li
  simp_all

theorem refreshLock_expired_still_refreshes_witness :
    (door ≠ [] ∧ '/' ∉ door ∧ (heldBy 0 3000000000).load door = some 0 ∧
      (heldBy 0 3000000000).deref 0 = some ⟨true, 0, 0, getIP alice, false⟩ ∧
      (heldBy 0 3000000000).clock - 0 ≥ TIMEOUT) ∧
    ∃ s',
      apiV1RefreshLock sampleExtern
          ⟨APIV1REFRESHLOCK
            ++ (door ++ '/' :: lockInfo.key sampleExtern ⟨true, 0, 0, getIP alice, false⟩),
            alice⟩ (heldBy 0 3000000000)
        = .returned ⟨200, none, "Lock Refreshed"⟩ s' ∧
      s'.load door = some 0 ∧
      s'.deref 0 = some ⟨true, 0, (heldBy 0 3000000000).clock, getIP alice, false⟩ :=
  ⟨⟨by decide, by decide, by decide, by decide, by decide⟩,
    refreshLock_expired_still_refreshes sampleExtern (heldBy 0 3000000000) door alice 0
      ⟨true, 0, 0, getIP alice, false⟩ (by decide) (by decide) (by decide) (by decide)
      rfl (by decide) rfl rfl⟩

/-- What a `ReleaseLock` that answered 200 found and left behind. -/
theorem releaseLock_ok_inv (x : Extern) (s s1 : State) (R k addr : Str) (resp : Response)
    (hR : R ≠ []) (hslash : '/' ∉ R) (hk : k ≠ []) (hks : '/' ∉ k)
    (hrel : apiV1ReleaseLock x ⟨APIV1RELEASELOCK ++ (R ++ '/' :: k), addr⟩ s
      = .returned resp s1)
    (hok : resp.status = 200) :
    ∃ p li, s.load R = some p ∧ s.deref p = some li ∧
      s1 = (s.sleep (li.expiryTime s.clock)).update p
        (lockInfo.unLock ∘ lockInfo.disable ∘ lockInfo.lock) := by
  unfold apiV1ReleaseLock at hrel
  simp only [release_slice, retrieveKey_wellformed hR hslash hk hks] at hrel
  split at hrel
  · cases hrel
    simp [httpError, StatusNotFound] at hok
  · rename_i p hload
    split at hrel
    · cases hrel
    · rename_i li hderef
      refine ⟨p, li, hload, hderef, ?_⟩
      split at hrel
      · cases hrel
      · split at hrel
        · cases hrel
          simp [httpError, StatusNotFound] at hok
        · split at hrel
          · cases hrel
            simp [httpError, StatusUnauthorized] at hok
          · simp only [Outcome.returned.injEq] at hrel
            rw [← hrel.2]
            simp only [State.update_clock, State.update_sleep, State.update_update]

/-- C8: after a `ReleaseLock` for `R` that answered 200 (state `s1`), the
record stored under `R` is inactive with `refreshed` at the Unix epoch, and
from that state, at any time, `RefreshLock` for `R` with any well-formed key
from any caller answers 410 and leaves the whole state as it was. -/
theorem refreshLock_after_release_gone (x : Extern) (s s1 : State) (R k addr : Str)
    (resp : Response) (hR : R ≠ []) (hslash : '/' ∉ R) (hk : k ≠ []) (hks : '/' ∉ k)
    (hrel : apiV1ReleaseLock x ⟨APIV1RELEASELOCK ++ (R ++ '/' :: k), addr⟩ s
      = .returned resp s1)
    (hok : resp.status = 200) :
    ∃ p li, s1.load R = some p ∧ s1.deref p = some li ∧
      li.active = false ∧ li.refreshed = unixEpoch ∧
      ∀ (t : Time) (k' addr' : Str), k' ≠ [] → '/' ∉ k' →
        apiV1RefreshLock x ⟨APIV1REFRESHLOCK ++ (R ++ '/' :: k'), addr'⟩
            { s1 with clock := t }
          = .returned ⟨410, none, "Lock expired and released"⟩ { s1 with clock := t } := by
  obtain ⟨p, li, hload, hderef, hs1⟩ :=
    releaseLock_ok_inv x s s1 R k addr resp hR hslash hk hks hrel hok
  have hd : s1.deref p = some ⟨false, li.created, unixEpoch, [], false⟩ := by
    rw [hs1, State.deref_update, if_pos rfl, State.deref_sleep, hderef]
    rfl
  have hl : s1.load R = some p := by
    rw [hs1]
    exact hload
  refine ⟨p, _, hl, hd, rfl, rfl, ?_⟩
  intro t k' addr' hk' hks'
  exact refreshLock_inactive x _ R k' addr' p _ hR hslash hk' hks' hl hd rfl rfl

theorem refreshLock_after_release_gone_witness :
    (door ≠ [] ∧ '/' ∉ door ∧ lockKey sampleExtern 0 ≠ [] ∧ '/' ∉ lockKey sampleExtern 0 ∧
      apiV1ReleaseLock sampleExtern
          ⟨APIV1RELEASELOCK ++ (door ++ '/' :: lockKey sampleExtern 0), alice⟩ (heldBy 0 5)
        = .returned ⟨200, none, "Lock Released"⟩
            { clock := 3000000000
              heap := [(door, ⟨false, 0, 0, [], false⟩)]
              locks := [(door, 0)] }) ∧
    ∃ p li, State.load { clock := 3000000000, heap := [(door, ⟨false, 0, 0, [], false⟩)],
                         locks := [(door, 0)] } door = some p ∧
      State.deref { clock := 3000000000, heap := [(door, ⟨false, 0, 0, [], false⟩)],
                    locks := [(door, 0)] } p = some li ∧
      li.active = false ∧ li.refreshed = unixEpoch ∧
      ∀ (t : Time) (k' addr' : Str), k' ≠ [] → '/' ∉ k' →
        apiV1RefreshLock sampleExtern ⟨APIV1REFRESHLOCK ++ (door ++ '/' :: k'), addr'⟩
            { clock := t, heap := [(door, ⟨false, 0, 0, [], false⟩)], locks := [(door, 0)] }
          = .returned ⟨410, none, "Lock expired and released"⟩
            { clock := t, heap := [(door, ⟨false, 0, 0, [], false⟩)], locks := [(door, 0)] } :=
  ⟨⟨by decide, by decide, by decide, by decide, by decide⟩,
    refreshLock_after_release_gone sampleExtern (heldBy 0 5) _ door (lockKey sampleExtern 0)
      alice ⟨200, none, "Lock Released"⟩ (by decide) (by decide) (by decide) (by decide)
      (by decide) rfl⟩

/-- C9, the failing input: `alice` holds `door` since time 0 and the lease
has run out at time `TIMEOUT`; `bob` requests `door`.  The handler returns
200 and the superseded record (position 0 of the heap) is left disabled with
its mutex still held: `apiV1RequestLock` never unlocks it on this path. -/
theorem requestLock_supersede_leaves_mutex_held :
    apiV1RequestLock sampleExtern ⟨APIV1REQUESTLOCK ++ door, bob⟩ (heldBy 0 3000000000)
      = .returned ⟨200, some (lockKey sampleExtern 3000000000), "Lock Granted"⟩
          { clock := 3000000000
            heap := [(door, ⟨false, 0, 0, [], true⟩),
                     (door, ⟨true, 3000000000, 3000000000, getIP bob, false⟩)]
            locks := [(door, 1), (door, 0)] } := by
  decide


/-- In the supersede branch of `apiV1RequestLock` (the stored record is
inactive or stale and its mutex was free) the handler answers 200 and the old
record stays in the heap disabled, with its mutex held. -/
theorem requestLock_supersede_mutex (x : Extern) (s : State) (R addr : Str) (p : Nat)
    (li : lockInfo) (hR : R ≠ []) (hslash : '/' ∉ R)
    (hload : s.load R = some p) (hderef : s.deref p = some li) (hfree : li.mutex = false)
    (hdead : (li.isActive && li.isOnTime s.clock TIMEOUT) = false) :
    ∃ s',
      apiV1RequestLock x ⟨APIV1REQUESTLOCK ++ R, addr⟩ s
        = .returned ⟨200, some (lockKey x s.clock), "Lock Granted"⟩ s' ∧
      s'.deref p = some ⟨false, li.created, unixEpoch, [], true⟩ := by
  have hp : p < s.heap.length := State.deref_lt hderef
  refine ⟨{ clock := s.clock
            heap := modifyCell lockInfo.disable p (modifyCell lockInfo.lock p s.heap)
              ++ [(R, newLockInfo s.clock ⟨APIV1REQUESTLOCK ++ R, addr⟩)]
            locks := (R, s.heap.length) :: s.locks }, ?_, ?_⟩
  · unfold apiV1RequestLock
    simp only [sliceFrom_append, hR, hslash, or_self, if_false, hload, hderef, hfree,
      State.update_clock, hdead, Bool.false_eq_true]
    rw [grantLock_eq]
    simp [State.update, modifyCell_length]
  · have hlen : p < (modifyCell lockInfo.disable p (modifyCell lockInfo.lock p s.heap)).length := by
      simpa [modifyCell_length] using hp
    have hd : (s.update p (lockInfo.disable ∘ lockInfo.lock)).deref p
        = some ⟨false, li.created, unixEpoch, [], true⟩ := by
      rw [State.deref_update, if_pos rfl, hderef]
      rfl
    simp only [State.deref, State.update, ← modifyCell_modifyCell] at hd
    simp only [State.deref, List.getElem?_append_left hlen]
    exact hd

theorem not_ok_of_grant {x : Extern} {r : Request} {resource : Str} {s s' : State}
    {resp : Response} (hr : grantLock x r resource s = .returned resp s')
    (hfail : resp.status ≠ 200) : False := by
  rw [grantLock_eq] at hr
  simp only [Outcome.returned.injEq] at hr
  exact hfail (by rw [← hr.1])

theorem apiV1RequestLock_failure (x : Extern) (r : Request) (s s' : State) (resp : Response)
    (hr : apiV1RequestLock x r s = .returned resp s') (hfail : resp.status ≠ 200) :
    s'.heap = s.heap ∧ s'.locks = s.locks := by
  unfold apiV1RequestLock at hr
  split at hr
  · cases hr
  · split at hr
    · simp only [Outcome.returned.injEq] at hr
      obtain ⟨-, rfl⟩ := hr
      exact ⟨rfl, rfl⟩
    · split at hr
      · exact (not_ok_of_grant hr hfail).elim
      · split at hr
        · cases hr
        · rename_i linfo hderef
          split at hr
          · simp only [Outcome.returned.injEq] at hr
            obtain ⟨-, rfl⟩ := hr
            exact ⟨rfl, rfl⟩
          · rename_i hfree
            dsimp only at hr
            split at hr
            · simp only [Outcome.returned.injEq, State.update_update] at hr
              obtain ⟨-, rfl⟩ := hr
              rw [State.update_eq_self hderef (lock_unLock_of_free (by simpa using hfree))]
              exact ⟨rfl, rfl⟩
            · exact (not_ok_of_grant hr hfail).elim

theorem apiV1ReleaseLock_failure (x : Extern) (r : Request) (s s' : State) (resp : Response)
    (hr : apiV1ReleaseLock x r s = .returned resp s') (hfail : resp.status ≠ 200) :
    s'.heap = s.heap ∧ s'.locks = s.locks := by
  unfold apiV1ReleaseLock at hr
  split at hr
  · cases hr
  · split at hr
    · simp only [Outcome.returned.injEq] at hr
      obtain ⟨-, rfl⟩ := hr
      exact ⟨rfl, rfl⟩
    · split at hr
      · simp only [Outcome.returned.injEq] at hr
        obtain ⟨-, rfl⟩ := hr
        exact ⟨rfl, rfl⟩
      · split at hr
        · cases hr
        · rename_i linfo hderef
          split at hr
          · cases hr
          · rename_i hfree
            have hid := State.update_eq_self hderef
              (@lock_unLock_of_free linfo (by simpa using hfree))
            dsimp only at hr
            split at hr
            · simp only [Outcome.returned.injEq, State.update_update] at hr
              obtain ⟨-, rfl⟩ := hr
              rw [hid]
              exact ⟨rfl, rfl⟩
            · split at hr
              · simp only [Outcome.returned.injEq, State.update_update] at hr
                obtain ⟨-, rfl⟩ := hr
                rw [hid]
                exact ⟨rfl, rfl⟩
              · simp only [Outcome.returned.injEq] at hr
                exact absurd (by rw [← hr.1]; rfl) hfail

theorem apiV1RefreshLock_failure (x : Extern) (r : Request) (s s' : State) (resp : Response)
    (hr : apiV1RefreshLock x r s = .returned resp s') (hfail : resp.status ≠ 200) :
    s'.heap = s.heap ∧ s'.locks = s.locks := by
  unfold apiV1RefreshLock at hr
  split at hr
  · cases hr
  · split at hr
    · simp only [Outcome.returned.injEq] at hr
      obtain ⟨-, rfl⟩ := hr
      exact ⟨rfl, rfl⟩
    · split at hr
      · simp only [Outcome.returned.injEq] at hr
        obtain ⟨-, rfl⟩ := hr
        exact ⟨rfl, rfl⟩
      · split at hr
        · cases hr
        · rename_i linfo hderef
          split at hr
          · simp only [Outcome.returned.injEq] at hr
            obtain ⟨-, rfl⟩ := hr
            exact ⟨rfl, rfl⟩
          · rename_i hfree
            have hid := State.update_eq_self hderef
              (@lock_unLock_of_free linfo (by simpa using hfree))
            dsimp only at hr
            split at hr
            · simp only [Outcome.returned.injEq, State.update_update] at hr
              obtain ⟨-, rfl⟩ := hr
              rw [hid]
              exact ⟨rfl, rfl⟩
            · split at hr
              · simp only [Outcome.returned.injEq, State.update_update] at hr
                obtain ⟨-, rfl⟩ := hr
                rw [hid]
                exact ⟨rfl, rfl⟩
              · simp only [Outcome.returned.injEq] at hr
                exact absurd (by rw [← hr.1]; rfl) hfail

/-! ## The registry invariant -/

theorem Consistent_empty (t0 : Time) : Consistent (State.empty t0) := by
  constructor
  · intro n p h
    simp [State.load, State.empty] at h
  · intro p n li h
    simp [State.empty] at h

theorem Consistent_update {s : State} {p : Nat} {f : lockInfo → lockInfo}
    (h : Consistent s) (hm : ∀ li, (f li).mutex = false)
    (ha : ∀ li, (f li).active = true → li.active = true) :
    Consistent (s.update p f) := by
  constructor
  · intro n q hq
    obtain ⟨li, hli, hfree⟩ := h.1 n q hq
    by_cases hqp : q = p
    · subst hqp
      refine ⟨f li, ?_, hm li⟩
      simp [State.update, modifyCell_getElem?, hli]
    · refine ⟨li, ?_, hfree⟩
      simp [State.update, modifyCell_getElem?, hqp, hli]
  · intro q n l hq hact
    simp only [State.update, modifyCell_getElem?] at hq
    split at hq
    · cases hcell : s.heap[q]? with
      | none => simp [hcell] at hq
      | some c =>
        simp only [hcell, Option.map_some', Option.some.injEq, Prod.mk.injEq] at hq
        obtain ⟨hn, hl⟩ := hq
        subst hn hl
        exact h.2 q c.1 c.2 hcell (ha _ hact)
    · exact h.2 q n l hq hact

theorem load_cons_self (c : Time) (h : List (Str × lockInfo)) (l : List (Str × Nat))
    (n : Str) (q : Nat) :
    State.load { clock := c, heap := h, locks := (n, q) :: l } n = some q := by
  simp [State.load]

theorem load_cons_of_ne (c : Time) (h : List (Str × lockInfo)) (l : List (Str × Nat))
    {n m : Str} (q : Nat) (hne : m ≠ n) :
    State.load { clock := c, heap := h, locks := (n, q) :: l } m = l.lookup m := by
  have hb : (m == n) = false := by simpa using hne
  simp [State.load, List.lookup, hb]

/-- The tail of `apiV1RequestLock` keeps the invariant: the heap `h` is the
old one, possibly with the record stored under `n` disabled, and the new
record is appended and stored under `n`. -/
theorem Consistent_store_new {s : State} {n : Str} {li : lockInfo} {h : List (Str × lockInfo)}
    (c : Time) (hs : Consistent s) (hlen : h.length = s.heap.length) (hm : li.mutex = false)
    (hkeep : ∀ (q : Nat) (m : Str), m ≠ n → s.load m = some q → h[q]? = s.heap[q]?)
    (hact : ∀ (q : Nat) (m : Str) (l : lockInfo), h[q]? = some (m, l) → l.active = true →
      m ≠ n ∧ s.heap[q]? = some (m, l)) :
    Consistent { clock := c, heap := h ++ [(n, li)], locks := (n, h.length) :: s.locks } := by
  constructor
  · intro m q hq
    by_cases hmn : m = n
    · subst hmn
      rw [load_cons_self] at hq
      cases hq
      exact ⟨li, by simp, hm⟩
    · rw [load_cons_of_ne _ _ _ _ hmn] at hq
      obtain ⟨l, hl, hfree⟩ := hs.1 m q hq
      refine ⟨l, ?_, hfree⟩
      have hq_lt : q < h.length := by
        rw [hlen]
        by_contra hge
        have : s.heap[q]? = none := List.getElem?_eq_none (by omega)
        simp [this] at hl
      show (h ++ [(n, li)])[q]? = some (m, l)
      rw [List.getElem?_append_left hq_lt, hkeep q m hmn hq, hl]
  · intro q m l hq hactive
    show State.load _ m = some q
    by_cases hq_lt : q < h.length
    · have hq2 : h[q]? = some (m, l) := by
        have := hq
        simp only [] at this
        rwa [List.getElem?_append_left hq_lt] at this
      obtain ⟨hmn, hold⟩ := hact q m l hq2 hactive
      rw [load_cons_of_ne _ _ _ _ hmn]
      exact hs.2 q m l hold hactive
    · have hq3 : (h ++ [(n, li)])[q]? = some (m, l) := hq
      have hq_eq : q = h.length := by
        by_contra hne
        have : (h ++ [(n, li)])[q]? = none :=
          List.getElem?_eq_none (by simp; omega)
        simp [this] at hq3
      subst hq_eq
      simp at hq3
      obtain ⟨hn, _⟩ := hq3
      subst hn
      rw [load_cons_self]


theorem Consistent_sleep {s : State} (d : Duration) (h : Consistent s) :
    Consistent (s.sleep d) := h

theorem Consistent_clock {s : State} (t : Time) (h : Consistent s) :
    Consistent { s with clock := t } := h

theorem unLock_lock_mutex (li : lockInfo) : ((lockInfo.unLock ∘ lockInfo.lock) li).mutex = false :=
  rfl

theorem apiV1RequestLock_consistent (x : Extern) (r : Request) (s s' : State)
    (resp : Response) (h : Consistent s)
    (hr : apiV1RequestLock x r s = .returned resp s') : Consistent s' := by
  unfold apiV1RequestLock at hr
  split at hr
  · cases hr
  · rename_i resource _
    split at hr
    · simp only [Outcome.returned.injEq] at hr
      obtain ⟨-, rfl⟩ := hr
      exact h
    · split at hr
      · rename_i habsent
        rw [grantLock_eq] at hr
        simp only [Outcome.returned.injEq] at hr
        obtain ⟨-, rfl⟩ := hr
        refine Consistent_store_new s.clock h rfl rfl (fun _ _ _ _ => rfl) ?_
        intro q m l hq hact
        refine ⟨?_, hq⟩
        intro hmn
        have := h.2 q m l hq hact
        rw [hmn, habsent] at this
        cases this
      · rename_i p hload
        split at hr
        · cases hr
        · rename_i linfo hderef
          split at hr
          · simp only [Outcome.returned.injEq] at hr
            obtain ⟨-, rfl⟩ := hr
            exact Consistent_sleep _ h
          · dsimp only at hr
            split at hr
            · simp only [Outcome.returned.injEq, State.update_update] at hr
              obtain ⟨-, rfl⟩ := hr
              exact Consistent_update h (fun _ => rfl) (fun _ ha => ha)
            · rw [grantLock_eq] at hr
              simp only [Outcome.returned.injEq] at hr
              obtain ⟨-, rfl⟩ := hr
              obtain ⟨l0, hl0, -⟩ := h.1 resource p hload
              have hother : ∀ (q : Nat) (m : Str) (l : lockInfo),
                  s.heap[q]? = some (m, l) → m ≠ resource → q ≠ p := by
                intro q m l hq hm hqp
                rw [hqp, hl0] at hq
                simp only [Option.some.injEq, Prod.mk.injEq] at hq
                exact hm hq.1.symm
              refine Consistent_store_new (s := s) (h := modifyCell lockInfo.disable p
                (modifyCell lockInfo.lock p s.heap)) s.clock h
                (by simp [modifyCell_length]) rfl ?_ ?_
              · intro q m hm hq
                obtain ⟨l, hl, -⟩ := h.1 m q hq
                have hqp := hother q m l hl hm
                simp [modifyCell_getElem?, hqp]
              · intro q m l hq hact
                simp only [modifyCell_getElem?] at hq
                by_cases hqp : q = p
                · exfalso
                  subst hqp
                  simp only [if_true, hl0, Option.map_some', Option.some.injEq,
                    Prod.mk.injEq] at hq
                  rw [← hq.2] at hact
                  simp [lockInfo.disable] at hact
                · simp only [hqp, if_false] at hq
                  refine ⟨?_, hq⟩
                  intro hmn
                  have := h.2 q m l hq hact
                  rw [hmn, hload] at this
                  exact hqp (Option.some.inj this).symm


theorem apiV1ReleaseLock_consistent (x : Extern) (r : Request) (s s' : State)
    (resp : Response) (h : Consistent s)
    (hr : apiV1ReleaseLock x r s = .returned resp s') : Consistent s' := by
  unfold apiV1ReleaseLock at hr
  split at hr
  · cases hr
  · split at hr
    · simp only [Outcome.returned.injEq] at hr
      obtain ⟨-, rfl⟩ := hr
      exact h
    · split at hr
      · simp only [Outcome.returned.injEq] at hr
        obtain ⟨-, rfl⟩ := hr
        exact h
      · split at hr
        · cases hr
        · split at hr
          · cases hr
          · dsimp only at hr
            split at hr
            · simp only [Outcome.returned.injEq, State.update_update] at hr
              obtain ⟨-, rfl⟩ := hr
              exact Consistent_update h (fun _ => rfl) (fun _ ha => ha)
            · split at hr
              · simp only [Outcome.returned.injEq, State.update_update] at hr
                obtain ⟨-, rfl⟩ := hr
                exact Consistent_update h (fun _ => rfl) (fun _ ha => ha)
              · simp only [Outcome.returned.injEq, State.update_update,
                  State.update_sleep] at hr
                obtain ⟨-, rfl⟩ := hr
                refine Consistent_sleep _ (Consistent_update h (fun _ => rfl) ?_)
                intro li ha
                simp [lockInfo.unLock, lockInfo.disable] at ha

theorem apiV1RefreshLock_consistent (x : Extern) (r : Request) (s s' : State)
    (resp : Response) (h : Consistent s)
    (hr : apiV1RefreshLock x r s = .returned resp s') : Consistent s' := by
  unfold apiV1RefreshLock at hr
  split at hr
  · cases hr
  · split at hr
    · simp only [Outcome.returned.injEq] at hr
      obtain ⟨-, rfl⟩ := hr
      exact h
    · split at hr
      · simp only [Outcome.returned.injEq] at hr
        obtain ⟨-, rfl⟩ := hr
        exact h
      · split at hr
        · cases hr
        · split at hr
          · simp only [Outcome.returned.injEq] at hr
            obtain ⟨-, rfl⟩ := hr
            exact Consistent_sleep _ h
          · dsimp only at hr
            split at hr
            · simp only [Outcome.returned.injEq, State.update_update] at hr
              obtain ⟨-, rfl⟩ := hr
              exact Consistent_update h (fun _ => rfl) (fun _ ha => ha)
            · split at hr
              · simp only [Outcome.returned.injEq, State.update_update] at hr
                obtain ⟨-, rfl⟩ := hr
                exact Consistent_update h (fun _ => rfl) (fun _ ha => ha)
              · simp only [Outcome.returned.injEq, State.update_update] at hr
                obtain ⟨-, rfl⟩ := hr
                exact Consistent_update h (fun _ => rfl) (fun _ ha => ha)

theorem apiV1_consistent (x : Extern) (r : Request) (s s' : State)
    (resp : Response) (h : Consistent s)
    (hr : apiV1 x r s = .returned resp s') : Consistent s' := by
  unfold apiV1 at hr
  split at hr
  · exact apiV1RequestLock_consistent x r s s' resp h hr
  · split at hr
    · exact apiV1ReleaseLock_consistent x r s s' resp h hr
    · split at hr
      · exact apiV1RefreshLock_consistent x r s s' resp h hr
      · simp only [Outcome.returned.injEq] at hr
        obtain ⟨-, rfl⟩ := hr
        exact h

theorem Reachable.consistent {x : Extern} {s : State} (h : Reachable x s) : Consistent s := by
  induction h with
  | init t0 => exact Consistent_empty t0
  | step t r resp _ _ hstep ih =>
    exact apiV1_consistent x r _ _ resp (Consistent_clock t ih) hstep

theorem deref_of_cell {s : State} {p : Nat} {n : Str} {li : lockInfo}
    (h : s.heap[p]? = some (n, li)) : s.deref p = some li := by
  simp [State.deref, h]

theorem length_le_of_isPrefixOf {a b : Str} (h : a.isPrefixOf b = true) :
    a.length ≤ b.length := by
  obtain ⟨t, rfl⟩ := List.isPrefixOf_iff_prefix.mp h
  simp

theorem apiV1RequestLock_returns (x : Extern) (r : Request) (s : State) (h : Consistent s)
    (hp : APIV1REQUESTLOCK.length ≤ r.path.length) :
    ∃ resp s', apiV1RequestLock x r s = .returned resp s' := by
  unfold apiV1RequestLock
  simp only [sliceFrom, hp, if_true]
  split
  · exact ⟨_, _, rfl⟩
  · split
    · exact ⟨_, _, grantLock_eq _ _ _ _⟩
    · rename_i p hload
      obtain ⟨li, hli, hfree⟩ := h.1 _ p hload
      simp only [deref_of_cell hli, hfree, Bool.false_eq_true, if_false]
      split
      · exact ⟨_, _, rfl⟩
      · exact ⟨_, _, grantLock_eq _ _ _ _⟩

theorem apiV1ReleaseLock_returns (x : Extern) (r : Request) (s : State) (h : Consistent s)
    (hp : APIV1REFRESHLOCK.length ≤ r.path.length) :
    ∃ resp s', apiV1ReleaseLock x r s = .returned resp s' := by
  unfold apiV1ReleaseLock
  simp only [sliceFrom, hp, if_true]
  split
  · exact ⟨_, _, rfl⟩
  · split
    · exact ⟨_, _, rfl⟩
    · rename_i p hload
      obtain ⟨li, hli, hfree⟩ := h.1 _ p hload
      simp only [deref_of_cell hli, hfree, Bool.false_eq_true, if_false]
      split
      · exact ⟨_, _, rfl⟩
      · split <;> exact ⟨_, _, rfl⟩

theorem apiV1RefreshLock_returns (x : Extern) (r : Request) (s : State) (h : Consistent s)
    (hp : APIV1REFRESHLOCK.length ≤ r.path.length) :
    ∃ resp s', apiV1RefreshLock x r s = .returned resp s' := by
  unfold apiV1RefreshLock
  simp only [sliceFrom, hp, if_true]
  split
  · exact ⟨_, _, rfl⟩
  · split
    · exact ⟨_, _, rfl⟩
    · rename_i p hload
      obtain ⟨li, hli, hfree⟩ := h.1 _ p hload
      simp only [deref_of_cell hli, hfree, Bool.false_eq_true, if_false]
      split
      · exact ⟨_, _, rfl⟩
      · split <;> exact ⟨_, _, rfl⟩

/-- From a reachable state every call returns: no handler panics and none
waits for ever on a mutex. -/
theorem Reachable.apiV1_returns {x : Extern} {s : State} (h : Reachable x s)
    (t : Time) (r : Request) :
    ∃ resp s', apiV1 x r { s with clock := t } = .returned resp s' := by
  have hc : Consistent { s with clock := t } := Consistent_clock t h.consistent
  unfold apiV1
  split
  · rename_i hpre
    exact apiV1RequestLock_returns x r _ hc (length_le_of_isPrefixOf hpre)
  · split
    · rename_i hpre
      have hlen : APIV1REFRESHLOCK.length = APIV1RELEASELOCK.length := by decide
      have hle := length_le_of_isPrefixOf hpre
      rw [← hlen] at hle
      exact apiV1ReleaseLock_returns x r _ hc hle
    · split
      · rename_i hpre
        exact apiV1RefreshLock_returns x r _ hc (length_le_of_isPrefixOf hpre)
      · exact ⟨_, _, rfl⟩

/-- C10: in every state reached from the empty registry by calls run one
after another at non-decreasing times, a record that is not the one stored in
the registry under the name it was created for is inactive, and so two live
(active and fresh) records created for the same name are the same record. -/
theorem reachable_one_live_record (x : Extern) (s : State) (h : Reachable x s) :
    (∀ (p : Nat) (n : Str) (li : lockInfo),
      s.heap[p]? = some (n, li) → s.load n ≠ some p → li.active = false) ∧
    (∀ (p q : Nat) (n : Str) (lp lq : lockInfo),
      s.heap[p]? = some (n, lp) → s.heap[q]? = some (n, lq) →
      live s.clock lp = true → live s.clock lq = true → p = q) := by
  have hc := h.consistent
  constructor
  · intro p n li hp hne
    cases hact : li.active with
    | false => rfl
    | true => exact absurd (hc.2 p n li hp hact) hne
  · intro p q n lp lq hp hq hlp hlq
    simp only [live, lockInfo.isActive, Bool.and_eq_true] at hlp hlq
    have h1 := hc.2 p n lp hp hlp.1
    have h2 := hc.2 q n lq hq hlq.1
    rw [h1] at h2
    exact Option.some.inj h2

theorem reachable_one_live_record_witness :
    (Reachable sampleExtern supersededState ∧
      supersededState.heap[0]? = some (door, ⟨false, 0, 0, [], true⟩) ∧
      supersededState.load door ≠ some 0 ∧
      supersededState.heap[1]?
        = some (door, ⟨true, 3000000000, 3000000000, "10.0.0.2".toList, false⟩) ∧
      supersededState.load door = some 1 ∧
      live supersededState.clock
        ⟨true, 3000000000, 3000000000, "10.0.0.2".toList, false⟩ = true) ∧
    ((∀ (p : Nat) (n : Str) (li : lockInfo),
      supersededState.heap[p]? = some (n, li) → supersededState.load n ≠ some p →
        li.active = false) ∧
    (∀ (p q : Nat) (n : Str) (lp lq : lockInfo),
      supersededState.heap[p]? = some (n, lp) → supersededState.heap[q]? = some (n, lq) →
      live supersededState.clock lp = true → live supersededState.clock lq = true →
        p = q)) :=
  have hfirst : Reachable sampleExtern (heldBy 0 0) :=
    Reachable.step 0 ⟨APIV1REQUESTLOCK ++ door, alice⟩
      ⟨200, some (lockKey sampleExtern 0), "Lock Granted"⟩
      (Reachable.init 0) (by decide) (by decide)
  have hreach : Reachable sampleExtern supersededState :=
    Reachable.step 3000000000 ⟨APIV1REQUESTLOCK ++ door, bob⟩
      ⟨200, some (lockKey sampleExtern 3000000000), "Lock Granted"⟩
      hfirst (by decide) (by decide)
  ⟨⟨hreach, by decide, by decide, by decide, by decide, by decide⟩,
    reachable_one_live_record sampleExtern supersededState hreach⟩


/-! ## The scenarios of `lockmanager_test.go` -/

/-- `TestRequest`: grant, a second request while the lease is fresh, and a
third one after sleeping `TIMEOUT`. -/
theorem TestRequest_statuses :
    serveAll sampleExtern (State.empty 0)
      [(0, ⟨APIV1REQUESTLOCK ++ door, alice⟩),
       (1, ⟨APIV1REQUESTLOCK ++ door, alice⟩),
       (3000000001, ⟨APIV1REQUESTLOCK ++ door, alice⟩)]
      = [200, 423, 200] := by
  decide

/-- `TestRelease`: grant, release with a wrong key, release with the key,
release again. -/
theorem TestRelease_statuses :
    serveAll sampleExtern (State.empty 0)
      [(0, ⟨APIV1REQUESTLOCK ++ door, alice⟩),
       (1, ⟨APIV1RELEASELOCK ++ (door ++ '/' :: "unauthorized".toList), alice⟩),
       (2, ⟨APIV1RELEASELOCK ++ (door ++ '/' :: lockKey sampleExtern 0), alice⟩),
       (3, ⟨APIV1RELEASELOCK ++ (door ++ '/' :: lockKey sampleExtern 0), alice⟩)]
      = [200, 401, 200, 404] := by
  decide

/-- `TestRefresh`: grant, refresh, refresh with a wrong key, refresh of an
unknown resource, release, and a refresh after the release. -/
theorem TestRefresh_statuses :
    serveAll sampleExtern (State.empty 0)
      [(0, ⟨APIV1REQUESTLOCK ++ door, alice⟩),
       (1, ⟨APIV1REFRESHLOCK ++ (door ++ '/' :: lockKey sampleExtern 0), alice⟩),
       (2, ⟨APIV1REFRESHLOCK ++ (door ++ '/' :: "unauthorized".toList), alice⟩),
       (3, ⟨APIV1REFRESHLOCK ++ ("window".toList ++ '/' :: lockKey sampleExtern 0), alice⟩),
       (4, ⟨APIV1RELEASELOCK ++ (door ++ '/' :: lockKey sampleExtern 0), alice⟩),
       (5, ⟨APIV1REFRESHLOCK ++ (door ++ '/' :: lockKey sampleExtern 0), alice⟩)]
      = [200, 200, 401, 404, 200, 410] := by
  decide


/-! ## Keys, addresses and record operations -/

theorem sprintfHex_length (l : List (Fin 256)) : (sprintfHex l).length = 2 * l.length := by
  induction l with
  | nil => rfl
  | cons b bs ih =>
    simp only [sprintfHex, List.length_cons, ih]
    omega

theorem hexDigit_mem (n : Nat) : hexDigit n ∈ hexDigits := by
  unfold hexDigit
  split <;> decide

theorem sprintfHex_mem (l : List (Fin 256)) : ∀ c ∈ sprintfHex l, c ∈ hexDigits := by
  induction l with
  | nil => simp [sprintfHex]
  | cons b bs ih =>
    intro c hc
    simp only [sprintfHex, List.mem_cons] at hc
    rcases hc with h | h | h
    · rw [h]
      exact hexDigit_mem _
    · rw [h]
      exact hexDigit_mem _
    · exact ih c h

/-- C12: for every creation time `t`, `lockKey t` has exactly 32 characters,
each one of `0123456789abcdef`, and it depends on `t` alone: equal times give
equal keys. -/
theorem lockKey_shape (x : Extern) (t : Time) :
    (lockKey x t).length = 32 ∧
    (∀ c ∈ lockKey x t, c ∈ hexDigits) ∧
    ∀ u : Time, u = t → lockKey x u = lockKey x t := by
  refine ⟨?_, sprintfHex_mem _, fun u hu => by rw [hu]⟩
  unfold lockKey hash
  rw [sprintfHex_length, (x.md5Sum (x.timeString t)).property]

theorem lockKey_shape_witness :
    (lockKey sampleExtern 1790000000000000000).length = 32 ∧
    (∀ c ∈ lockKey sampleExtern 1790000000000000000, c ∈ hexDigits) ∧
    ∀ u : Time, u = 1790000000000000000 →
      lockKey sampleExtern u = lockKey sampleExtern 1790000000000000000 :=
  lockKey_shape sampleExtern 1790000000000000000

/-- C16: when the well-formed name `R` has no record, `ReleaseLock` and
`RefreshLock` with any well-formed key from any caller answer 404 and leave
the whole state, hence the registry, as it was: no record is created. -/
theorem release_refresh_absent_notFound (x : Extern) (s : State) (R k addr : Str)
    (hR : R ≠ []) (hslash : '/' ∉ R) (hk : k ≠ []) (hks : '/' ∉ k)
    (habsent : s.load R = none) :
    apiV1ReleaseLock x ⟨APIV1RELEASELOCK ++ (R ++ '/' :: k), addr⟩ s
      = .returned ⟨404, none, "Resource not Found"⟩ s ∧
    apiV1RefreshLock x ⟨APIV1REFRESHLOCK ++ (R ++ '/' :: k), addr⟩ s
      = .returned ⟨404, none, "Resource not Found"⟩ s := by
  constructor
  · unfold apiV1ReleaseLock
    simp only [release_slice, retrieveKey_wellformed hR hslash hk hks, habsent]
    rfl
  · unfold apiV1RefreshLock
    simp only [refresh_slice, retrieveKey_wellformed hR hslash hk hks, habsent]
    rfl

theorem release_refresh_absent_notFound_witness :
    (door ≠ [] ∧ '/' ∉ door ∧ lockKey sampleExtern 0 ≠ [] ∧ '/' ∉ lockKey sampleExtern 0 ∧
      (State.empty 7).load door = none) ∧
    apiV1ReleaseLock sampleExtern
        ⟨APIV1RELEASELOCK ++ (door ++ '/' :: lockKey sampleExtern 0), alice⟩ (State.empty 7)
      = .returned ⟨404, none, "Resource not Found"⟩ (State.empty 7) ∧
    apiV1RefreshLock sampleExtern
        ⟨APIV1REFRESHLOCK ++ (door ++ '/' :: lockKey sampleExtern 0), alice⟩ (State.empty 7)
      = .returned ⟨404, none, "Resource not Found"⟩ (State.empty 7) :=
  ⟨⟨by decide, by decide, by decide, by decide, by decide⟩,
    release_refresh_absent_notFound sampleExtern (State.empty 7) door (lockKey sampleExtern 0)
      alice (by decide) (by decide) (by decide) (by decide) (by decide)⟩

/-- What `isRequestAuthorithed` computes: it is `true` exactly when the key
or the address does not match. -/
theorem isRequestAuthorithed_iff (x : Extern) (li : lockInfo) (r : Request) (key : Str) :
    li.isRequestAuthorithed x r key = true ↔
      ¬ (key = li.key x ∧ getIP r.remoteAddr = li.ip) := by
  simp only [lockInfo.isRequestAuthorithed, Bool.or_eq_true, decide_eq_true_eq]
  tauto

/-- C17, the failing input: `alice` owns the record and presents its key, so
she has authority over the resource, and `isRequestAuthorithed` returns
`false`; with a wrong key it returns `true`. -/
theorem isRequestAuthorithed_inverted :
    lockInfo.isRequestAuthorithed sampleExtern ⟨true, 0, 0, getIP alice, false⟩
        ⟨APIV1RELEASELOCK ++ (door ++ '/' :: lockKey sampleExtern 0), alice⟩
        (lockKey sampleExtern 0) = false ∧
    lockInfo.isRequestAuthorithed sampleExtern ⟨true, 0, 0, getIP alice, false⟩
        ⟨APIV1RELEASELOCK ++ (door ++ '/' :: "unauthorized".toList), alice⟩
        "unauthorized".toList = true := by
  decide

/-- C18, as the code behaves: a disabled record passes `isOnTime` whenever
the duration asked about exceeds the time elapsed since the Unix epoch: a
duration of 100 years in 2026, or `TIMEOUT` one second after the epoch. -/
theorem disable_isOnTime_counterexample :
    lockInfo.isOnTime 1790000000000000000
        (lockInfo.disable ⟨true, 1780000000000000000, 1780000000000000000, getIP alice, false⟩)
        3153600000000000000 = true ∧
    lockInfo.isOnTime 1000000000
        (lockInfo.disable ⟨true, 0, 0, getIP alice, false⟩) TIMEOUT = true := by
  decide

/-- C18, amended: `disable` sets `active = false`, `ip = ""` and
`refreshed` to the Unix epoch and keeps `created`, hence the key; afterwards
`isActive` is false, `isOnTime d` is false at every time `now` that lies at
least `d` after the epoch (for `d` a `Duration`, at most `maxDuration`), and
disabling twice is the same as disabling once. -/
theorem disable_spec (x : Extern) (li : lockInfo) :
    li.disable.active = false ∧ li.disable.ip = [] ∧ li.disable.refreshed = unixEpoch ∧
    li.disable.created = li.created ∧ li.disable.key x = li.key x ∧
    li.disable.isActive = false ∧
    (∀ now : Time, ∀ d : Duration, d ≤ now - unixEpoch → d ≤ maxDuration →
      li.disable.isOnTime now d = false) ∧
    li.disable.disable = li.disable := by
  refine ⟨rfl, rfl, rfl, rfl, rfl, rfl, ?_, rfl⟩
  intro now d hd hmax
  simp only [lockInfo.isOnTime, lockInfo.disable, decide_eq_false_iff_not, not_lt]
  unfold timeSub
  unfold unixEpoch maxDuration minDuration at *
  simp only [Time, Duration] at *
  split
  · omega
  · split <;> omega

theorem disable_spec_witness :
    (lockInfo.disable ⟨true, 5, 9, getIP alice, true⟩).active = false ∧
    (lockInfo.disable ⟨true, 5, 9, getIP alice, true⟩).ip = [] ∧
    (lockInfo.disable ⟨true, 5, 9, getIP alice, true⟩).refreshed = unixEpoch ∧
    (lockInfo.disable ⟨true, 5, 9, getIP alice, true⟩).created = 5 ∧
    (lockInfo.disable ⟨true, 5, 9, getIP alice, true⟩).key sampleExtern
      = lockInfo.key sampleExtern ⟨true, 5, 9, getIP alice, true⟩ ∧
    (lockInfo.disable ⟨true, 5, 9, getIP alice, true⟩).isActive = false ∧
    (∀ now : Time, ∀ d : Duration, d ≤ now - unixEpoch → d ≤ maxDuration →
      (lockInfo.disable ⟨true, 5, 9, getIP alice, true⟩).isOnTime now d = false) ∧
    (lockInfo.disable ⟨true, 5, 9, getIP alice, true⟩).disable
      = lockInfo.disable ⟨true, 5, 9, getIP alice, true⟩ :=
  disable_spec sampleExtern ⟨true, 5, 9, getIP alice, true⟩

/-- What `getIP` computes when the host has no colon: the host, whatever
the port part is. -/
theorem getIP_host_port {host : Str} (h : ':' ∉ host) (port : Str) :
    getIP (host ++ ':' :: port) = host := by
  simp [getIP, stringsSplit_append h]

/-- The index `[0]` in `getIP` never fails: the split has a first piece,
and `getIP` is that piece. -/
theorem getIP_total (addr : Str) : (stringsSplit addr ':')[0]? = some (getIP addr) := by
  unfold getIP
  cases h : stringsSplit addr ':' with
  | nil => exact absurd h (stringsSplit_ne_nil _ _)
  | cons a as => simp

/-- C19, the failing input: for the bracketed IPv6 address `[::1]:8080`,
whose port part `8080` has no colon, `getIP` returns `[` and not the host
`[::1]`; for the IPv4 address of `alice` it returns the host. -/
theorem getIP_ipv6_truncated :
    getIP ("[::1]".toList ++ ':' :: "8080".toList) = "[".toList ∧
    getIP ("[::1]".toList ++ ':' :: "8080".toList) ≠ "[::1]".toList ∧
    getIP alice = "10.0.0.1".toList := by
  decide

theorem apiV1ReleaseLock_eq_on (x : Extern) (r : Request) (s : State) :
    apiV1ReleaseLock x r s =
      match sliceFrom r.path APIV1REFRESHLOCK.length with
      | none => .panicked
      | some rest => releaseLockOn x r rest s := by
  unfold apiV1ReleaseLock releaseLockOn
  rfl

/-- C20: `apiV1ReleaseLock` cuts the path at `len(APIV1REFRESHLOCK)`, which
equals `len(APIV1RELEASELOCK)`; so for every path `p` that starts with the
ReleaseLock prefix, the handler runs on `p` without that prefix: that is the
string `retrieveKey` receives. -/
theorem releaseLock_strips_release_prefix (x : Extern) (p addr : Str) (s : State)
    (hp : APIV1RELEASELOCK.isPrefixOf p = true) :
    APIV1REFRESHLOCK.length = APIV1RELEASELOCK.length ∧
    APIV1RELEASELOCK ++ p.drop APIV1RELEASELOCK.length = p ∧
    sliceFrom p APIV1REFRESHLOCK.length = some (p.drop APIV1RELEASELOCK.length) ∧
    apiV1ReleaseLock x ⟨p, addr⟩ s
      = releaseLockOn x ⟨p, addr⟩ (p.drop APIV1RELEASELOCK.length) s := by
  obtain ⟨rest, rfl⟩ := List.isPrefixOf_iff_prefix.mp hp
  have hdrop : (APIV1RELEASELOCK ++ rest).drop APIV1RELEASELOCK.length = rest := by simp
  refine ⟨by decide, by rw [hdrop], by rw [hdrop, release_slice], ?_⟩
  rw [apiV1ReleaseLock_eq_on, hdrop]
  simp only [release_slice]

theorem releaseLock_strips_release_prefix_witness :
    APIV1RELEASELOCK.isPrefixOf (APIV1RELEASELOCK ++ "door/00ff".toList) = true ∧
    (APIV1REFRESHLOCK.length = APIV1RELEASELOCK.length ∧
    APIV1RELEASELOCK ++ (APIV1RELEASELOCK ++ "door/00ff".toList).drop APIV1RELEASELOCK.length
      = APIV1RELEASELOCK ++ "door/00ff".toList ∧
    sliceFrom (APIV1RELEASELOCK ++ "door/00ff".toList) APIV1REFRESHLOCK.length
      = some ((APIV1RELEASELOCK ++ "door/00ff".toList).drop APIV1RELEASELOCK.length) ∧
    apiV1ReleaseLock sampleExtern ⟨APIV1RELEASELOCK ++ "door/00ff".toList, alice⟩ (heldBy 0 5)
      = releaseLockOn sampleExtern ⟨APIV1RELEASELOCK ++ "door/00ff".toList, alice⟩
          ((APIV1RELEASELOCK ++ "door/00ff".toList).drop APIV1RELEASELOCK.length)
          (heldBy 0 5)) :=
  ⟨by decide,
    releaseLock_strips_release_prefix sampleExtern (APIV1RELEASELOCK ++ "door/00ff".toList)
      alice (heldBy 0 5) (by decide)⟩


/-! ## The wait of `ReleaseLock` -/

theorem expiryTime_wait {li : lockInfo} {now : Time} (hpast : li.refreshed ≤ now) :
    max 0 (li.expiryTime now) = max 0 (li.refreshed + TIMEOUT - now) := by
  unfold lockInfo.expiryTime timeSub timeAdd
  unfold TIMEOUT maxDuration minDuration
  simp only [Time, Duration] at *
  split
  · omega
  · split <;> omega

/-- The branch a `ReleaseLock` that answered 200 took: the mutex was free,
the record active and the request let through. -/
theorem releaseLock_ok_path (x : Extern) (s s1 : State) (R k addr : Str) (resp : Response)
    (hR : R ≠ []) (hslash : '/' ∉ R) (hk : k ≠ []) (hks : '/' ∉ k)
    (hrel : apiV1ReleaseLock x ⟨APIV1RELEASELOCK ++ (R ++ '/' :: k), addr⟩ s
      = .returned resp s1)
    (hok : resp.status = 200) :
    ∃ p li, s.load R = some p ∧ s.deref p = some li ∧ li.mutex = false ∧
      li.isActive = true ∧
      li.isRequestAuthorithed x ⟨APIV1RELEASELOCK ++ (R ++ '/' :: k), addr⟩ k = false := by
  unfold apiV1ReleaseLock at hrel
  simp only [release_slice, retrieveKey_wellformed hR hslash hk hks] at hrel
  split at hrel
  · cases hrel
    simp [httpError, StatusNotFound] at hok
  · rename_i p hload
    split at hrel
    · cases hrel
    · rename_i li hderef
      split at hrel
      · cases hrel
      · rename_i hfree
        split at hrel
        · cases hrel
          simp [httpError, StatusNotFound] at hok
        · rename_i hact
          split at hrel
          · cases hrel
            simp [httpError, StatusUnauthorized] at hok
          · rename_i hauth
            exact ⟨p, li, hload, hderef, by simpa using hfree, by simpa using hact,
              by simpa using hauth⟩

/-- The last state of `releaseLockSteps` is the state `apiV1ReleaseLock`
returns, whenever the handler got as far as `linfo.lock()`. -/
theorem releaseLockSteps_last (x : Extern) (r : Request) (s s' : State) (resp : Response)
    (hr : apiV1ReleaseLock x r s = .returned resp s') :
    (releaseLockSteps x r s = [] ∧ s' = s) ∨ (releaseLockSteps x r s).getLast? = some s' := by
  unfold apiV1ReleaseLock at hr
  unfold releaseLockSteps
  split at hr
  · cases hr
  · split at hr
    · simp only [Outcome.returned.injEq] at hr
      exact Or.inl ⟨rfl, hr.2.symm⟩
    · split at hr
      · simp only [Outcome.returned.injEq] at hr
        exact Or.inl ⟨rfl, hr.2.symm⟩
      · split at hr
        · cases hr
        · split at hr
          · cases hr
          · rename_i hfree
            right
            dsimp only at hr ⊢
            rw [if_neg hfree]
            split at hr
            · rename_i hact
              simp only [Outcome.returned.injEq] at hr
              rw [if_pos hact, ← hr.2]
              rfl
            · rename_i hact
              rw [if_neg hact]
              split at hr
              · rename_i hauth
                simp only [Outcome.returned.injEq] at hr
                rw [if_pos hauth, ← hr.2]
                rfl
              · rename_i hauth
                simp only [Outcome.returned.injEq] at hr
                rw [if_neg hauth, ← hr.2]
                rfl

/-- C13: a `ReleaseLock` that starts at time `now` on the record stored under
`R`, refreshed at `r ≤ now`, and answers 200 passes through four states in
this order: the record locked, at `now`; the wait over, at
`now + max 0 (r + TIMEOUT - now)` (no wait when the lease has already run
out), with the record still as it was, active and refreshed at `r`; the
record disabled, at that same time; the mutex released.  So the handler waits
exactly `max 0 (r + TIMEOUT - now)` before it disables the record, and
disables it at a time `≥ r + TIMEOUT`, at which `isOnTime TIMEOUT` was
already false for it. -/
theorem releaseLock_waits_out_lease (x : Extern) (s s1 : State) (R k addr : Str)
    (resp : Response) (p : Nat) (li : lockInfo)
    (hR : R ≠ []) (hslash : '/' ∉ R) (hk : k ≠ []) (hks : '/' ∉ k)
    (hload : s.load R = some p) (hderef : s.deref p = some li)
    (hpast : li.refreshed ≤ s.clock)
    (hrel : apiV1ReleaseLock x ⟨APIV1RELEASELOCK ++ (R ++ '/' :: k), addr⟩ s
      = .returned resp s1)
    (hok : resp.status = 200) :
    ∃ sLocked sSlept sDisabled : State,
      releaseLockSteps x ⟨APIV1RELEASELOCK ++ (R ++ '/' :: k), addr⟩ s
        = [sLocked, sSlept, sDisabled, s1] ∧
      sLocked.clock = s.clock ∧ sLocked.deref p = some li.lock ∧
      sSlept.clock = s.clock + max 0 (li.refreshed + TIMEOUT - s.clock) ∧
      sSlept.deref p = some li.lock ∧
      li.lock.active = true ∧ li.lock.refreshed = li.refreshed ∧
      (s.clock - li.refreshed ≥ TIMEOUT → sSlept.clock = s.clock) ∧
      li.refreshed + TIMEOUT ≤ sSlept.clock ∧
      li.lock.isOnTime sSlept.clock TIMEOUT = false ∧
      sDisabled.clock = sSlept.clock ∧ sDisabled.deref p = some li.lock.disable ∧
      s1.clock = s.clock + max 0 (li.refreshed + TIMEOUT - s.clock) ∧
      li.isOnTime s1.clock TIMEOUT = false ∧
      s1.deref p = some ⟨false, li.created, unixEpoch, [], false⟩ := by
  obtain ⟨p', li', hload', hderef', hfree, hact, hauth⟩ :=
    releaseLock_ok_path x s s1 R k addr resp hR hslash hk hks hrel hok
  rw [hload] at hload'
  cases hload'
  rw [hderef] at hderef'
  cases hderef'
  obtain ⟨p', li', hload', hderef', hs1⟩ :=
    releaseLock_ok_inv x s s1 R k addr resp hR hslash hk hks hrel hok
  rw [hload] at hload'
  cases hload'
  rw [hderef] at hderef'
  cases hderef'
  have hwait : ((s.update p lockInfo.lock).sleep
      (li.expiryTime (s.update p lockInfo.lock).clock)).clock
        = s.clock + max 0 (li.refreshed + TIMEOUT - s.clock) := by
    rw [← expiryTime_wait hpast]
    rfl
  have hlocked : (s.update p lockInfo.lock).deref p = some li.lock := by
    rw [State.deref_update, if_pos rfl, hderef]
    rfl
  have hlate : li.refreshed + TIMEOUT
      ≤ s.clock + max 0 (li.refreshed + TIMEOUT - s.clock) := by
    simp only [Time, Duration] at *
    omega
  have hstale : ∀ l : lockInfo, l.refreshed = li.refreshed →
      l.isOnTime (s.clock + max 0 (li.refreshed + TIMEOUT - s.clock)) TIMEOUT = false := by
    intro l hl
    simp only [lockInfo.isOnTime, decide_eq_false_iff_not, timeSub_lt_TIMEOUT, hl]
    simp only [Time, Duration] at *
    omega
  have hclock1 : s1.clock = s.clock + max 0 (li.refreshed + TIMEOUT - s.clock) := by
    rw [hs1, State.update_clock, ← expiryTime_wait hpast]
    rfl
  refine ⟨s.update p lockInfo.lock,
    (s.update p lockInfo.lock).sleep (li.expiryTime (s.update p lockInfo.lock).clock),
    ((s.update p lockInfo.lock).sleep
      (li.expiryTime (s.update p lockInfo.lock).clock)).update p lockInfo.disable,
    ?_, rfl, hlocked, hwait, ?_, hact, rfl, ?_, ?_, ?_, rfl, ?_, hclock1, ?_, ?_⟩
  · unfold releaseLockSteps
    simp only [release_slice, retrieveKey_wellformed hR hslash hk hks, hload, hderef, hfree,
      hact, hauth, Bool.not_true, Bool.false_eq_true, if_false]
    rw [hs1]
    simp only [State.update_clock, State.update_sleep, State.update_update]
  · rw [State.deref_sleep, hlocked]
  · intro hexp
    rw [hwait]
    simp only [Time, Duration] at *
    omega
  · rw [hwait]
    exact hlate
  · rw [hwait]
    exact hstale li.lock rfl
  · rw [State.deref_update, if_pos rfl, State.deref_sleep, hlocked]
    rfl
  · rw [hclock1]
    exact hstale li rfl
  · rw [hs1, State.deref_update, if_pos rfl, State.deref_sleep, hderef]
    rfl

theorem releaseLock_waits_out_lease_witness :
    (door ≠ [] ∧ '/' ∉ door ∧ lockKey sampleExtern 0 ≠ [] ∧ '/' ∉ lockKey sampleExtern 0 ∧
      (heldBy 0 1000000000).load door = some 0 ∧
      (heldBy 0 1000000000).deref 0 = some ⟨true, 0, 0, getIP alice, false⟩ ∧
      (0 : Time) ≤ (heldBy 0 1000000000).clock ∧
      apiV1ReleaseLock sampleExtern
          ⟨APIV1RELEASELOCK ++ (door ++ '/' :: lockKey sampleExtern 0), alice⟩
          (heldBy 0 1000000000)
        = .returned ⟨200, none, "Lock Released"⟩
            { clock := 3000000000
              heap := [(door, ⟨false, 0, 0, [], false⟩)]
              locks := [(door, 0)] }) ∧
    ∃ sLocked sSlept sDisabled : State,
      releaseLockSteps sampleExtern
          ⟨APIV1RELEASELOCK ++ (door ++ '/' :: lockKey sampleExtern 0), alice⟩
          (heldBy 0 1000000000)
        = [sLocked, sSlept, sDisabled,
            { clock := 3000000000
              heap := [(door, ⟨false, 0, 0, [], false⟩)]
              locks := [(door, 0)] }] ∧
      sLocked.clock = (heldBy 0 1000000000).clock ∧
      sLocked.deref 0 = some (lockInfo.lock ⟨true, 0, 0, getIP alice, false⟩) ∧
      sSlept.clock = (heldBy 0 1000000000).clock
        + max 0 (0 + TIMEOUT - (heldBy 0 1000000000).clock) ∧
      sSlept.deref 0 = some (lockInfo.lock ⟨true, 0, 0, getIP alice, false⟩) ∧
      (lockInfo.lock ⟨true, 0, 0, getIP alice, false⟩).active = true ∧
      (lockInfo.lock ⟨true, 0, 0, getIP alice, false⟩).refreshed = 0 ∧
      ((heldBy 0 1000000000).clock - 0 ≥ TIMEOUT →
        sSlept.clock = (heldBy 0 1000000000).clock) ∧
      0 + TIMEOUT ≤ sSlept.clock ∧
      (lockInfo.lock ⟨true, 0, 0, getIP alice, false⟩).isOnTime sSlept.clock TIMEOUT = false ∧
      sDisabled.clock = sSlept.clock ∧
      sDisabled.deref 0
        = some (lockInfo.disable (lockInfo.lock ⟨true, 0, 0, getIP alice, false⟩)) ∧
      (3000000000 : Time) = (heldBy 0 1000000000).clock
        + max 0 (0 + TIMEOUT - (heldBy 0 1000000000).clock) ∧
      lockInfo.isOnTime 3000000000 ⟨true, 0, 0, getIP alice, false⟩ TIMEOUT = false ∧
      State.deref { clock := 3000000000, heap := [(door, ⟨false, 0, 0, [], false⟩)],
                    locks := [(door, 0)] } 0
        = some ⟨false, 0, unixEpoch, [], false⟩ :=
  ⟨⟨by decide, by decide, by decide, by decide, by decide, by decide, by decide, by decide⟩,
    releaseLock_waits_out_lease sampleExtern (heldBy 0 1000000000)
      { clock := 3000000000, heap := [(door, ⟨false, 0, 0, [], false⟩)], locks := [(door, 0)] }
      door (lockKey sampleExtern 0) alice ⟨200, none, "Lock Released"⟩ 0
      ⟨true, 0, 0, getIP alice, false⟩ (by decide) (by decide) (by decide) (by decide)
      (by decide) (by decide) (by decide) (by decide) rfl⟩

/-- The four states of the release of `door` by `alice`, one second into
the lease: the record is locked at 1 s, still active when the wait ends at
3 s, disabled at 3 s, unlocked at 3 s. -/
theorem releaseLockSteps_example :
    releaseLockSteps sampleExtern
        ⟨APIV1RELEASELOCK ++ (door ++ '/' :: lockKey sampleExtern 0), alice⟩
        (heldBy 0 1000000000)
      = [{ clock := 1000000000, heap := [(door, ⟨true, 0, 0, getIP alice, true⟩)],
           locks := [(door, 0)] },
         { clock := 3000000000, heap := [(door, ⟨true, 0, 0, getIP alice, true⟩)],
           locks := [(door, 0)] },
         { clock := 3000000000, heap := [(door, ⟨false, 0, 0, [], true⟩)],
           locks := [(door, 0)] },
         { clock := 3000000000, heap := [(door, ⟨false, 0, 0, [], false⟩)],
           locks := [(door, 0)] }] := by
  decide

/-! ## `retrieveKey` -/

theorem stringsSplit_singleton {s b : Str} {sep : Char} (h : stringsSplit s sep = [b]) :
    s = b ∧ sep ∉ b := by
  induction s generalizing b with
  | nil =>
    simp only [stringsSplit, List.cons.injEq, and_true] at h
    subst h
    simp
  | cons c cs ih =>
    unfold stringsSplit at h
    split at h
    · simp only [List.cons.injEq] at h
      exact absurd h.2 (stringsSplit_ne_nil _ _)
    · rename_i hc
      split at h
      · rename_i hnil
        exact absurd hnil (stringsSplit_ne_nil _ _)
      · rename_i y ys hsplit
        simp only [List.cons.injEq] at h
        obtain ⟨hb, hys⟩ := h
        subst hys
        obtain ⟨hcs, hmem⟩ := ih hsplit
        subst hb hcs
        refine ⟨rfl, ?_⟩
        simp only [List.mem_cons, not_or]
        exact ⟨fun e => hc e.symm, hmem⟩

theorem stringsSplit_pair {s a b : Str} {sep : Char} (h : stringsSplit s sep = [a, b]) :
    s = a ++ sep :: b ∧ sep ∉ a ∧ sep ∉ b := by
  induction s generalizing a with
  | nil => simp [stringsSplit] at h
  | cons c cs ih =>
    unfold stringsSplit at h
    split at h
    · rename_i hc
      simp only [List.cons.injEq] at h
      obtain ⟨ha, hrest⟩ := h
      obtain ⟨hcs, hmem⟩ := stringsSplit_singleton hrest
      subst ha hcs hc
      simp [hmem]
    · rename_i hc
      split at h
      · rename_i hnil
        exact absurd hnil (stringsSplit_ne_nil _ _)
      · rename_i y ys hsplit
        simp only [List.cons.injEq] at h
        obtain ⟨ha, hys⟩ := h
        subst hys
        obtain ⟨hcs, hma, hmb⟩ := ih hsplit
        subst ha
        refine ⟨by rw [hcs]; rfl, ?_, hmb⟩
        simp only [List.mem_cons, not_or]
        exact ⟨fun e => hc e.symm, hma⟩

/-- How `retrieveKey` ends: either it fails with two empty strings, or it
returns the two pieces of a split in two, both non-empty. -/
theorem retrieveKey_cases (path : Str) :
    (∃ e, retrieveKey path = ([], [], some e)) ∨
    (∃ a b, retrieveKey path = (a, b, none) ∧ stringsSplit path '/' = [a, b] ∧
      a ≠ [] ∧ b ≠ []) := by
  unfold retrieveKey
  split
  · rename_i a b hsplit
    by_cases hab : a = [] ∨ b = []
    · left
      exact ⟨_, by rw [if_pos hab]⟩
    · right
      refine ⟨a, b, by rw [if_neg hab], hsplit, ?_, ?_⟩
      · exact fun e => hab (Or.inl e)
      · exact fun e => hab (Or.inr e)
  · left
    exact ⟨_, rfl⟩

/-- C15: `retrieveKey path` succeeds exactly when `path` is `a ++ "/" ++ b`
with `a` and `b` non-empty and free of `/`; on success the two results
joined by `/` give `path` back and neither contains `/`; on failure both
results are empty and `ReleaseLock` and `RefreshLock` answer 400, changing
nothing. -/
theorem retrieveKey_spec (path : Str) :
    ((retrieveKey path).2.2 = none ↔
      ∃ a b : Str, a ≠ [] ∧ b ≠ [] ∧ '/' ∉ a ∧ '/' ∉ b ∧ path = a ++ '/' :: b) ∧
    (∀ resource key : Str, retrieveKey path = (resource, key, none) →
      resource ++ '/' :: key = path ∧ '/' ∉ resource ∧ '/' ∉ key) ∧
    ((retrieveKey path).2.2 ≠ none →
      (retrieveKey path).1 = [] ∧ (retrieveKey path).2.1 = [] ∧
      ∀ (x : Extern) (addr : Str) (s : State),
        apiV1ReleaseLock x ⟨APIV1RELEASELOCK ++ path, addr⟩ s
          = .returned ⟨400, none, "Api Bad Request"⟩ s ∧
        apiV1RefreshLock x ⟨APIV1REFRESHLOCK ++ path, addr⟩ s
          = .returned ⟨400, none, "Api Bad Request"⟩ s) := by
  refine ⟨⟨?_, ?_⟩, ?_, ?_⟩
  · intro hnone
    rcases retrieveKey_cases path with ⟨e, he⟩ | ⟨a, b, hab, hsplit, ha, hb⟩
    · rw [he] at hnone
      cases hnone
    · obtain ⟨hp, hma, hmb⟩ := stringsSplit_pair hsplit
      exact ⟨a, b, ha, hb, hma, hmb, hp⟩
  · rintro ⟨a, b, ha, hb, hma, hmb, rfl⟩
    rw [retrieveKey_wellformed ha hma hb hmb]
  · intro resource key hret
    rcases retrieveKey_cases path with ⟨e, he⟩ | ⟨a, b, hab, hsplit, ha, hb⟩
    · rw [he] at hret
      cases hret
    · rw [hab] at hret
      cases hret
      obtain ⟨hp, hma, hmb⟩ := stringsSplit_pair hsplit
      exact ⟨hp.symm, hma, hmb⟩
  · intro hfail
    rcases retrieveKey_cases path with ⟨e, he⟩ | ⟨a, b, hab, hsplit, ha, hb⟩
    · refine ⟨by rw [he], by rw [he], ?_⟩
      intro x addr s
      constructor
      · unfold apiV1ReleaseLock
        simp only [release_slice, he]
        rfl
      · unfold apiV1RefreshLock
        simp only [refresh_slice, he]
        rfl
    · rw [hab] at hfail
      exact absurd rfl hfail

theorem retrieveKey_spec_witness :
    ((retrieveKey "door/00ff".toList).2.2 = none ↔
      ∃ a b : Str, a ≠ [] ∧ b ≠ [] ∧ '/' ∉ a ∧ '/' ∉ b ∧ "door/00ff".toList = a ++ '/' :: b) ∧
    (∀ resource key : Str, retrieveKey "door/00ff".toList = (resource, key, none) →
      resource ++ '/' :: key = "door/00ff".toList ∧ '/' ∉ resource ∧ '/' ∉ key) ∧
    ((retrieveKey "door/00ff".toList).2.2 ≠ none →
      (retrieveKey "door/00ff".toList).1 = [] ∧ (retrieveKey "door/00ff".toList).2.1 = [] ∧
      ∀ (x : Extern) (addr : Str) (s : State),
        apiV1ReleaseLock x ⟨APIV1RELEASELOCK ++ "door/00ff".toList, addr⟩ s
          = .returned ⟨400, none, "Api Bad Request"⟩ s ∧
        apiV1RefreshLock x ⟨APIV1REFRESHLOCK ++ "door/00ff".toList, addr⟩ s
          = .returned ⟨400, none, "Api Bad Request"⟩ s) :=
  retrieveKey_spec "door/00ff".toList

/-- Evaluations of `retrieveKey`: a well-formed path, and the four ways to
fail (no slash, two slashes, empty resource, empty key). -/
theorem retrieveKey_examples :
    retrieveKey "door/00ff".toList = ("door".toList, "00ff".toList, none) ∧
    retrieveKey "door".toList = ([], [], some "Partial content") ∧
    retrieveKey "door/00/ff".toList = ([], [], some "Partial content") ∧
    retrieveKey "/00ff".toList = ([], [], some "Empty content") ∧
    retrieveKey "door/".toList = ([], [], some "Empty content") := by
  decide


/-! ## What the operations keep of a record -/

theorem keepsIdentity_refl (li : lockInfo) : keepsIdentity li li :=
  ⟨rfl, Or.inl rfl⟩

theorem Framed_of_heap_eq {s s' : State} (h : s'.heap = s.heap) : Framed s s' := by
  intro p li hp
  refine ⟨li, ?_, keepsIdentity_refl li⟩
  unfold State.deref at *
  rw [h]
  exact hp

theorem Framed_update (s : State) (p : Nat) {f : lockInfo → lockInfo}
    (hf : ∀ l, keepsIdentity l (f l)) : Framed s (s.update p f) := by
  intro q li hq
  rw [State.deref_update]
  split
  · exact ⟨f li, by rw [hq]; rfl, hf li⟩
  · exact ⟨li, hq, keepsIdentity_refl li⟩

theorem Framed_of_heap_append {s s2 s' : State} {c : Str × lockInfo} (h : Framed s s2)
    (hh : s'.heap = s2.heap ++ [c]) : Framed s s' := by
  intro p li hp
  obtain ⟨li', hli', hk⟩ := h p li hp
  refine ⟨li', ?_, hk⟩
  have hlt := State.deref_lt hli'
  unfold State.deref at *
  rw [hh, List.getElem?_append_left hlt]
  exact hli'

theorem keeps_unLock_lock (l : lockInfo) :
    keepsIdentity l ((lockInfo.unLock ∘ lockInfo.lock) l) :=
  ⟨rfl, Or.inl rfl⟩

theorem keeps_unLock_disable_lock (l : lockInfo) :
    keepsIdentity l ((lockInfo.unLock ∘ lockInfo.disable ∘ lockInfo.lock) l) :=
  ⟨rfl, Or.inr ⟨rfl, rfl⟩⟩

theorem keeps_disable_lock (l : lockInfo) :
    keepsIdentity l ((lockInfo.disable ∘ lockInfo.lock) l) :=
  ⟨rfl, Or.inr ⟨rfl, rfl⟩⟩

theorem keeps_unLock_refresh_lock (now : Time) (l : lockInfo) :
    keepsIdentity l ((lockInfo.unLock ∘ lockInfo.refresh now ∘ lockInfo.lock) l) :=
  ⟨rfl, Or.inl rfl⟩

theorem Framed_grant {x : Extern} {r : Request} {resource : Str} {s s2 s' : State}
    {resp : Response} (h : Framed s s2)
    (hr : grantLock x r resource s2 = .returned resp s') : Framed s s' := by
  rw [grantLock_eq] at hr
  simp only [Outcome.returned.injEq] at hr
  obtain ⟨-, rfl⟩ := hr
  exact Framed_of_heap_append h rfl

theorem apiV1RequestLock_framed (x : Extern) (r : Request) (s s' : State) (resp : Response)
    (hr : apiV1RequestLock x r s = .returned resp s') : Framed s s' := by
  unfold apiV1RequestLock at hr
  split at hr
  · cases hr
  · split at hr
    · simp only [Outcome.returned.injEq] at hr
      obtain ⟨-, rfl⟩ := hr
      exact Framed_of_heap_eq rfl
    · split at hr
      · exact Framed_grant (Framed_of_heap_eq rfl) hr
      · split at hr
        · cases hr
        · split at hr
          · simp only [Outcome.returned.injEq] at hr
            obtain ⟨-, rfl⟩ := hr
            exact Framed_of_heap_eq rfl
          · dsimp only at hr
            split at hr
            · simp only [Outcome.returned.injEq, State.update_update] at hr
              obtain ⟨-, rfl⟩ := hr
              exact Framed_update s _ keeps_unLock_lock
            · rw [State.update_update] at hr
              exact Framed_grant (Framed_update s _ keeps_disable_lock) hr

theorem apiV1ReleaseLock_framed (x : Extern) (r : Request) (s s' : State) (resp : Response)
    (hr : apiV1ReleaseLock x r s = .returned resp s') : Framed s s' := by
  unfold apiV1ReleaseLock at hr
  split at hr
  · cases hr
  · split at hr
    · simp only [Outcome.returned.injEq] at hr
      obtain ⟨-, rfl⟩ := hr
      exact Framed_of_heap_eq rfl
    · split at hr
      · simp only [Outcome.returned.injEq] at hr
        obtain ⟨-, rfl⟩ := hr
        exact Framed_of_heap_eq rfl
      · split at hr
        · cases hr
        · split at hr
          · cases hr
          · dsimp only at hr
            split at hr
            · simp only [Outcome.returned.injEq, State.update_update] at hr
              obtain ⟨-, rfl⟩ := hr
              exact Framed_update s _ keeps_unLock_lock
            · split at hr
              · simp only [Outcome.returned.injEq, State.update_update] at hr
                obtain ⟨-, rfl⟩ := hr
                exact Framed_update s _ keeps_unLock_lock
              · simp only [Outcome.returned.injEq, State.update_update,
                  State.update_sleep] at hr
                obtain ⟨-, rfl⟩ := hr
                exact Framed_update s _ keeps_unLock_disable_lock

theorem apiV1RefreshLock_framed (x : Extern) (r : Request) (s s' : State) (resp : Response)
    (hr : apiV1RefreshLock x r s = .returned resp s') : Framed s s' := by
  unfold apiV1RefreshLock at hr
  split at hr
  · cases hr
  · split at hr
    · simp only [Outcome.returned.injEq] at hr
      obtain ⟨-, rfl⟩ := hr
      exact Framed_of_heap_eq rfl
    · split at hr
      · simp only [Outcome.returned.injEq] at hr
        obtain ⟨-, rfl⟩ := hr
        exact Framed_of_heap_eq rfl
      · split at hr
        · cases hr
        · split at hr
          · simp only [Outcome.returned.injEq] at hr
            obtain ⟨-, rfl⟩ := hr
            exact Framed_of_heap_eq rfl
          · dsimp only at hr
            split at hr
            · simp only [Outcome.returned.injEq, State.update_update] at hr
              obtain ⟨-, rfl⟩ := hr
              exact Framed_update s _ keeps_unLock_lock
            · split at hr
              · simp only [Outcome.returned.injEq, State.update_update] at hr
                obtain ⟨-, rfl⟩ := hr
                exact Framed_update s _ keeps_unLock_lock
              · simp only [Outcome.returned.injEq, State.update_update] at hr
                obtain ⟨-, rfl⟩ := hr
                exact Framed_update s _ (keeps_unLock_refresh_lock _)

/-- C14, as the code behaves: `disable` clears the owner of a record; a
`ReleaseLock` by the owner leaves the stored record with `ip = ""`. -/
theorem disable_clears_ip_counterexample :
    (lockInfo.disable ⟨true, 0, 0, getIP alice, false⟩).ip = [] ∧
    getIP alice ≠ [] ∧
    apiV1ReleaseLock sampleExtern
        ⟨APIV1RELEASELOCK ++ (door ++ '/' :: lockKey sampleExtern 0), alice⟩ (heldBy 0 5)
      = .returned ⟨200, none, "Lock Released"⟩
          { clock := 3000000000
            heap := [(door, ⟨false, 0, 0, [], false⟩)]
            locks := [(door, 0)] } := by
  decide

/-- C14, amended: `refresh` keeps `created` and `ip`; `disable` keeps
`created` and sets `ip` to the empty string; and after a `RequestLock`,
`ReleaseLock` or `RefreshLock` that returns, every record that existed is
still there with the same `created`, and with the same `ip` unless the
handler disabled it, in which case `ip` is empty and the record inactive. -/
theorem created_kept_ip_kept_or_cleared (x : Extern) (r : Request) (s s' : State)
    (resp : Response)
    (hr : apiV1RequestLock x r s = .returned resp s' ∨
          apiV1ReleaseLock x r s = .returned resp s' ∨
          apiV1RefreshLock x r s = .returned resp s') :
    (∀ (now : Time) (li : lockInfo),
      (li.refresh now).created = li.created ∧ (li.refresh now).ip = li.ip) ∧
    (∀ li : lockInfo, li.disable.created = li.created ∧ li.disable.ip = []) ∧
    ∀ (p : Nat) (li : lockInfo), s.deref p = some li →
      ∃ li', s'.deref p = some li' ∧ li'.created = li.created ∧
        (li'.ip = li.ip ∨ (li'.ip = [] ∧ li'.active = false)) := by
  refine ⟨fun _ _ => ⟨rfl, rfl⟩, fun _ => ⟨rfl, rfl⟩, ?_⟩
  rcases hr with h | h | h
  · exact apiV1RequestLock_framed x r s s' resp h
  · exact apiV1ReleaseLock_framed x r s s' resp h
  · exact apiV1RefreshLock_framed x r s s' resp h

theorem created_kept_ip_kept_or_cleared_witness :
    (apiV1RequestLock sampleExtern ⟨APIV1REQUESTLOCK ++ door, bob⟩ (heldBy 0 3000000000)
        = .returned ⟨200, some (lockKey sampleExtern 3000000000), "Lock Granted"⟩
          { clock := 3000000000
            heap := [(door, ⟨false, 0, 0, [], true⟩),
                     (door, ⟨true, 3000000000, 3000000000, getIP bob, false⟩)]
            locks := [(door, 1), (door, 0)] }) ∧
    ((∀ (now : Time) (li : lockInfo),
      (li.refresh now).created = li.created ∧ (li.refresh now).ip = li.ip) ∧
    (∀ li : lockInfo, li.disable.created = li.created ∧ li.disable.ip = []) ∧
    ∀ (p : Nat) (li : lockInfo), (heldBy 0 3000000000).deref p = some li →
      ∃ li', State.deref
          { clock := 3000000000
            heap := [(door, ⟨false, 0, 0, [], true⟩),
                     (door, ⟨true, 3000000000, 3000000000, getIP bob, false⟩)]
            locks := [(door, 1), (door, 0)] } p = some li' ∧
        li'.created = li.created ∧
        (li'.ip = li.ip ∨ (li'.ip = [] ∧ li'.active = false))) :=
  ⟨by decide,
    created_kept_ip_kept_or_cleared sampleExtern ⟨APIV1REQUESTLOCK ++ door, bob⟩
      (heldBy 0 3000000000)
      { clock := 3000000000
        heap := [(door, ⟨false, 0, 0, [], true⟩),
                 (door, ⟨true, 3000000000, 3000000000, getIP bob, false⟩)]
        locks := [(door, 1), (door, 0)] }
      ⟨200, some (lockKey sampleExtern 3000000000), "Lock Granted"⟩
      (Or.inl (by decide))⟩


/-! ## Concurrent requests -/

theorem apiV1RequestLock_eq_afterLoad (x : Extern) (r : Request) (s : State) :
    apiV1RequestLock x r s =
      match sliceFrom r.path APIV1REQUESTLOCK.length with
      | none => .panicked
      | some resource =>
        if resource = [] ∨ '/' ∈ resource then
          .returned (httpError "Api Bad Request" StatusBadRequest) s
        else requestLockAfterLoad x r resource (s.load resource) s := by
  unfold apiV1RequestLock requestLockAfterLoad
  rfl

/-- A goroutine that runs its two stretches with nothing in between does
what the handler does. -/
theorem State.at_own_clock (s : State) :
    ({ s with clock := max s.clock s.clock } : State) = s := by
  cases s
  simp

theorem runSchedule_alone (x : Extern) (r : Request) (s s' : State) (resp : Response)
    (h : apiV1RequestLock x r s = .returned resp s') :
    runSchedule x [(0, s.clock), (0, s.clock)] [.arrived r] s = ([.answered resp], s') := by
  rw [apiV1RequestLock_eq_afterLoad] at h
  cases hs : sliceFrom r.path APIV1REQUESTLOCK.length with
  | none =>
    rw [hs] at h
    cases h
  | some resource =>
    rw [hs] at h
    by_cases hbad : resource = [] ∨ '/' ∈ resource
    · simp only [if_pos hbad, Outcome.returned.injEq] at h
      obtain ⟨rfl, rfl⟩ := h
      have h1 : (Task.arrived r).step x s
          = (.answered (httpError "Api Bad Request" StatusBadRequest), s) := by
        simp [Task.step, hs, hbad]
      unfold runSchedule
      simp only [List.getElem?_cons_zero, State.at_own_clock, h1, List.set_cons_zero]
      unfold runSchedule
      simp only [List.getElem?_cons_zero, State.at_own_clock, Task.step, List.set_cons_zero]
      rfl
    · simp only [if_neg hbad] at h
      have h1 : (Task.arrived r).step x s = (.loaded r resource (s.load resource), s) := by
        simp [Task.step, hs, hbad]
      have h2 : (Task.loaded r resource (s.load resource)).step x s = (.answered resp, s') := by
        simp [Task.step, h]
      unfold runSchedule
      simp only [List.getElem?_cons_zero, State.at_own_clock, h1, List.set_cons_zero]
      unfold runSchedule
      simp only [List.getElem?_cons_zero, State.at_own_clock, h2, List.set_cons_zero]
      rfl

/-- C11, the failing schedule: the registry is empty and `alice` and `bob`
request `door` at the same moment.  Both goroutines run `locks.Load` (times
0 and 1) before either stores its record (times 2 and 3): both find no
record, both store a new one and both answer 200 with a key.  Run one after
the other, the second call is answered 423. -/
theorem concurrent_requests_both_granted :
    runSchedule sampleExtern [(0, 0), (1, 1), (0, 2), (1, 3)]
        [.arrived ⟨APIV1REQUESTLOCK ++ door, alice⟩, .arrived ⟨APIV1REQUESTLOCK ++ door, bob⟩]
        (State.empty 0)
      = ([.answered ⟨200, some (lockKey sampleExtern 2), "Lock Granted"⟩,
          .answered ⟨200, some (lockKey sampleExtern 3), "Lock Granted"⟩],
         { clock := 3
           heap := [(door, ⟨true, 2, 2, getIP alice, false⟩),
                    (door, ⟨true, 3, 3, getIP bob, false⟩)]
           locks := [(door, 1), (door, 0)] }) ∧
    runSchedule sampleExtern [(0, 0), (0, 1), (1, 2), (1, 3)]
        [.arrived ⟨APIV1REQUESTLOCK ++ door, alice⟩, .arrived ⟨APIV1REQUESTLOCK ++ door, bob⟩]
        (State.empty 0)
      = ([.answered ⟨200, some (lockKey sampleExtern 1), "Lock Granted"⟩,
          .answered ⟨423, none, "Resource already in use"⟩],
         { clock := 3
           heap := [(door, ⟨true, 1, 1, getIP alice, false⟩)]
           locks := [(door, 0)] }) := by
  decide


/-! ## Active records are refreshed in the past -/

theorem RefreshedInPast_later {s : State} (t : Time) (h : RefreshedInPast s)
    (ht : s.clock ≤ t) : RefreshedInPast { s with clock := t } := by
  intro p n li hp hact
  have := h p n li hp hact
  show li.refreshed ≤ t
  simp only [Time] at *
  omega

theorem RefreshedInPast_sleep {s : State} (d : Duration) (h : RefreshedInPast s) :
    RefreshedInPast (s.sleep d) := by
  refine RefreshedInPast_later _ h ?_
  have : (0 : Int) ≤ max 0 d := le_max_left 0 d
  simp only [Time, Duration] at *
  omega

theorem RefreshedInPast_update {s : State} {p : Nat} {f : lockInfo → lockInfo}
    (h : RefreshedInPast s)
    (hf : ∀ l, (f l).active = true →
      (f l).refreshed ≤ s.clock ∨ (l.active = true ∧ (f l).refreshed = l.refreshed)) :
    RefreshedInPast (s.update p f) := by
  intro q n l hq hact
  simp only [State.update, modifyCell_getElem?] at hq
  show l.refreshed ≤ s.clock
  split at hq
  · cases hcell : s.heap[q]? with
    | none => simp [hcell] at hq
    | some c =>
      simp only [hcell, Option.map_some', Option.some.injEq, Prod.mk.injEq] at hq
      obtain ⟨hn, hl⟩ := hq
      subst hn hl
      rcases hf c.2 hact with h1 | ⟨h1, h2⟩
      · exact h1
      · rw [h2]
        exact h q c.1 c.2 hcell h1
  · exact h q n l hq hact

theorem RefreshedInPast_grant {x : Extern} {r : Request} {resource : Str} {s s' : State}
    {resp : Response} (h : RefreshedInPast s)
    (hr : grantLock x r resource s = .returned resp s') : RefreshedInPast s' := by
  rw [grantLock_eq] at hr
  simp only [Outcome.returned.injEq] at hr
  obtain ⟨-, rfl⟩ := hr
  intro q n l hq hact
  show l.refreshed ≤ s.clock
  have hq2 : (s.heap ++ [(resource, newLockInfo s.clock r)])[q]? = some (n, l) := hq
  by_cases hlt : q < s.heap.length
  · rw [List.getElem?_append_left hlt] at hq2
    exact h q n l hq2 hact
  · by_cases heq : q = s.heap.length
    · subst heq
      simp only [List.getElem?_concat_length, Option.some.injEq, Prod.mk.injEq] at hq2
      rw [← hq2.2]
      exact le_refl _
    · have : (s.heap ++ [(resource, newLockInfo s.clock r)])[q]? = none :=
        List.getElem?_eq_none (by simp; omega)
      rw [this] at hq2
      cases hq2

theorem keepsPast_unLock_lock (c : Time) (l : lockInfo)
    (ha : ((lockInfo.unLock ∘ lockInfo.lock) l).active = true) :
    ((lockInfo.unLock ∘ lockInfo.lock) l).refreshed ≤ c ∨
      (l.active = true ∧ ((lockInfo.unLock ∘ lockInfo.lock) l).refreshed = l.refreshed) :=
  Or.inr ⟨ha, rfl⟩

theorem apiV1RequestLock_refreshedInPast (x : Extern) (r : Request) (s s' : State)
    (resp : Response) (h : RefreshedInPast s)
    (hr : apiV1RequestLock x r s = .returned resp s') : RefreshedInPast s' := by
  unfold apiV1RequestLock at hr
  split at hr
  · cases hr
  · split at hr
    · simp only [Outcome.returned.injEq] at hr
      obtain ⟨-, rfl⟩ := hr
      exact h
    · split at hr
      · exact RefreshedInPast_grant h hr
      · split at hr
        · cases hr
        · split at hr
          · simp only [Outcome.returned.injEq] at hr
            obtain ⟨-, rfl⟩ := hr
            exact RefreshedInPast_sleep _ h
          · dsimp only at hr
            split at hr
            · simp only [Outcome.returned.injEq, State.update_update] at hr
              obtain ⟨-, rfl⟩ := hr
              exact RefreshedInPast_update h (keepsPast_unLock_lock _)
            · rw [State.update_update] at hr
              refine RefreshedInPast_grant (RefreshedInPast_update h ?_) hr
              intro l ha
              simp [lockInfo.disable] at ha

theorem apiV1ReleaseLock_refreshedInPast (x : Extern) (r : Request) (s s' : State)
    (resp : Response) (h : RefreshedInPast s)
    (hr : apiV1ReleaseLock x r s = .returned resp s') : RefreshedInPast s' := by
  unfold apiV1ReleaseLock at hr
  split at hr
  · cases hr
  · split at hr
    · simp only [Outcome.returned.injEq] at hr
      obtain ⟨-, rfl⟩ := hr
      exact h
    · split at hr
      · simp only [Outcome.returned.injEq] at hr
        obtain ⟨-, rfl⟩ := hr
        exact h
      · split at hr
        · cases hr
        · split at hr
          · cases hr
          · dsimp only at hr
            split at hr
            · simp only [Outcome.returned.injEq, State.update_update] at hr
              obtain ⟨-, rfl⟩ := hr
              exact RefreshedInPast_update h (keepsPast_unLock_lock _)
            · split at hr
              · simp only [Outcome.returned.injEq, State.update_update] at hr
                obtain ⟨-, rfl⟩ := hr
                exact RefreshedInPast_update h (keepsPast_unLock_lock _)
              · simp only [Outcome.returned.injEq, State.update_update,
                  State.update_sleep] at hr
                obtain ⟨-, rfl⟩ := hr
                refine RefreshedInPast_sleep _ (RefreshedInPast_update h ?_)
                intro l ha
                simp [lockInfo.unLock, lockInfo.disable] at ha

theorem apiV1RefreshLock_refreshedInPast (x : Extern) (r : Request) (s s' : State)
    (resp : Response) (h : RefreshedInPast s)
    (hr : apiV1RefreshLock x r s = .returned resp s') : RefreshedInPast s' := by
  unfold apiV1RefreshLock at hr
  split at hr
  · cases hr
  · split at hr
    · simp only [Outcome.returned.injEq] at hr
      obtain ⟨-, rfl⟩ := hr
      exact h
    · split at hr
      · simp only [Outcome.returned.injEq] at hr
        obtain ⟨-, rfl⟩ := hr
        exact h
      · split at hr
        · cases hr
        · split at hr
          · simp only [Outcome.returned.injEq] at hr
            obtain ⟨-, rfl⟩ := hr
            exact RefreshedInPast_sleep _ h
          · dsimp only at hr
            split at hr
            · simp only [Outcome.returned.injEq, State.update_update] at hr
              obtain ⟨-, rfl⟩ := hr
              exact RefreshedInPast_update h (keepsPast_unLock_lock _)
            · split at hr
              · simp only [Outcome.returned.injEq, State.update_update] at hr
                obtain ⟨-, rfl⟩ := hr
                exact RefreshedInPast_update h (keepsPast_unLock_lock _)
              · simp only [Outcome.returned.injEq, State.update_update] at hr
                obtain ⟨-, rfl⟩ := hr
                exact RefreshedInPast_update h (fun _ _ => Or.inl (le_refl _))

/-- In every reachable state an active record was refreshed at or before
the current time: the condition under which the wait of `ReleaseLock` is
stated. -/
theorem Reachable.refreshedInPast {x : Extern} {s : State} (h : Reachable x s) :
    RefreshedInPast s := by
  induction h with
  | init t0 =>
    intro p n li hp
    simp [State.empty] at hp
  | step t r resp _ hle hstep ih =>
    have hnow := RefreshedInPast_later t ih hle
    unfold apiV1 at hstep
    split at hstep
    · exact apiV1RequestLock_refreshedInPast x r _ _ resp hnow hstep
    · split at hstep
      · exact apiV1ReleaseLock_refreshedInPast x r _ _ resp hnow hstep
      · split at hstep
        · exact apiV1RefreshLock_refreshedInPast x r _ _ resp hnow hstep
        · simp only [Outcome.returned.injEq] at hstep
          obtain ⟨-, rfl⟩ := hstep
          exact hnow

end LockManager
